import Mathlib

/-!
Verification development for the fa0311/file-transfer-system repository.

The Go sources are shallowly embedded as pure Lean functions:

* machine integers (`int64`) are modelled as `Nat` (all quantities involved
  are non-negative byte counts; no claim concerns overflow behaviour);
* `float32`/`float64` derived quantities (progress percent, transfer speed)
  are modelled exactly over `ℚ`;
* SHA-256 is an opaque pure function; the code only ever compares digests
  for equality, so the digest function is a parameter `hash : List Nat → Nat`
  of every definition that uses it;
* filesystem-path library calls (`filepath.Clean`, `filepath.Join`,
  `filepath.EvalSymlinks`, `filepath.Glob`, `os.Lstat`, ...) are oracles
  passed in as record fields, since their behaviour depends on the ambient
  filesystem; the control flow around them is translated faithfully;
* file contents live in an in-memory map `String → Option (List Nat)`;
  OS-level I/O failures (create/write/sync) are outside the pure model,
  so the corresponding error branches of the Go code are dead here;
* streams are lists of messages; reaching the end of the list models
  `io.EOF` on `Recv`.
-/

namespace FileTransfer

/-! ## internal/progress/tracker.go : the progress store -/

/-- Mirrors `progress.FileProgress` (tracker.go). The two `time.Time`
fields are omitted: wall-clock time is modelled by an explicit `elapsed`
argument where a derived query needs it. -/
structure FileProgress where
  FileID : String := ""
  FilePath : String := ""
  TotalSize : Nat := 0
  BytesTransferred : Nat := 0
  Status : String := ""
  ErrorMessage : String := ""
deriving DecidableEq

/-- Mirrors `progress.Tracker`: a map from file id to its progress entry. -/
def Tracker : Type := String → Option FileProgress

/-- The freshly constructed tracker (`progress.NewTracker`). -/
def NewTracker : Tracker := fun _ => none

/-- Mirrors `Tracker.StartTransfer`: always (re)creates the entry. -/
def startTransfer (t : Tracker) (fileID filePath : String) (totalSize : Nat) : Tracker :=
  fun id => if id = fileID then
    some { FileID := fileID, FilePath := filePath, TotalSize := totalSize,
           BytesTransferred := 0, Status := "in_progress" }
  else t id

/-- Mirrors `Tracker.UpdateProgress`: overwrites the byte counter; a no-op
when the id is unknown. -/
def updateProgress (t : Tracker) (fileID : String) (bytesTransferred : Nat) : Tracker :=
  match t fileID with
  | none => t
  | some fp => fun id => if id = fileID then some { fp with BytesTransferred := bytesTransferred } else t id

/-- Mirrors `Tracker.CompleteTransfer`: a no-op when the id is unknown. -/
def completeTransfer (t : Tracker) (fileID : String) : Tracker :=
  match t fileID with
  | none => t
  | some fp => fun id => if id = fileID then some { fp with Status := "completed" } else t id

/-- Mirrors `Tracker.FailTransfer`: a no-op when the id is unknown. -/
def failTransfer (t : Tracker) (fileID errorMsg : String) : Tracker :=
  match t fileID with
  | none => t
  | some fp => fun id => if id = fileID then
      some { fp with Status := "error", ErrorMessage := errorMsg } else t id

/-- Mirrors `Tracker.GetProgress`. -/
def getProgress (t : Tracker) (fileID : String) : Option FileProgress := t fileID

/-- Mirrors `Tracker.RemoveTransfer`. -/
def removeTransfer (t : Tracker) (fileID : String) : Tracker :=
  fun id => if id = fileID then none else t id

/-- Mirrors `FileProgress.GetProgressPercent` (exact rational arithmetic in
place of `float32`): `0` when the total size is `0`, otherwise
`bytes / total * 100`. -/
def GetProgressPercent (fp : FileProgress) : ℚ :=
  if fp.TotalSize = 0 then 0
  else (fp.BytesTransferred : ℚ) / (fp.TotalSize : ℚ) * 100

/-- Mirrors `FileProgress.GetTransferSpeed` (exact rational arithmetic in
place of `float64`); `elapsed` stands for `time.Since(fp.StartTime).Seconds()`.
Note the result is converted to megabytes per second by the final division. -/
def GetTransferSpeed (fp : FileProgress) (elapsed : ℚ) : ℚ :=
  if elapsed = 0 then 0
  else ((fp.BytesTransferred : ℚ) / elapsed) / (1024 * 1024)

/-! ## Path helpers shared by the validators

`strings.Contains(path, "..")` is modelled on the character list of the
string; a "`..` segment" (the spec-side notion) is an occurrence of `..`
as a whole `/`-separated component. -/

/-- Go `strings.Contains(s, "..")` on the character list of `s`. -/
def hasDotDot : List Char → Bool
  | c₁ :: c₂ :: t => (c₁ = '.' && c₂ = '.') || hasDotDot (c₂ :: t)
  | _ => false

/-- Prepend a character to the first component of a split. -/
def consHead (c : Char) : List (List Char) → List (List Char)
  | [] => [[c]]
  | h :: r => (c :: h) :: r

/-- Split a character list on `/`, keeping empty components. -/
def splitOnSlash : List Char → List (List Char)
  | [] => [[]]
  | c :: t => if c = '/' then [] :: splitOnSlash t else consHead c (splitOnSlash t)

/-- The spec-side notion from the claim: the path contains a `..` segment. -/
def DotDotSegment (s : String) : Prop := ['.', '.'] ∈ splitOnSlash s.data

instance (s : String) : Decidable (DotDotSegment s) := by
  unfold DotDotSegment; infer_instance

/-- `true` exactly on the `error` constructor of `Except`. -/
def isErr {ε α : Type} : Except ε α → Bool
  | .error _ => true
  | .ok _ => false

/-- List-level prefix test (kernel-reducible). -/
def listIsPre : List Char → List Char → Bool
  | [], _ => true
  | _ :: _, [] => false
  | a :: as, b :: bs => a = b && listIsPre as bs

/-- Go `strings.HasPrefix` on the character lists of the strings. -/
def strHasPre (pre s : String) : Bool := listIsPre pre.data s.data

/-! ## The path validators

Three variants occur in the repository: `transfer.Validator.ValidatePath`
(internal/http/handler.go) and two historical `PathValidator.ValidatePath`
variants (the files concatenated after the Dockerfile). The filesystem-
dependent library calls are oracles collected in `PathOps`. -/

/-- Oracles for the `path/filepath` library calls.
`evalSymlinks p = none` models `filepath.EvalSymlinks` returning an error;
`rel base target = none` models `filepath.Rel` returning an error. -/
structure PathOps where
  clean : String → String
  isAbs : String → Bool
  join : String → String → String
  dir : String → String
  base : String → String
  evalSymlinks : String → Option String
  rel : String → String → Option String

/-- Mirrors `transfer.Validator.ValidatePath` (handler.go): clean, make
absolute, resolve symlinks (falling back to the parent directory, then to
the unresolved path), then require the allowed-directory prefix and reject
any `..` substring in the original path. -/
def Validator.ValidatePath (ops : PathOps) (allowedDir path : String) : Except String String :=
  let cleanPath := ops.clean path
  let absPath := if ops.isAbs cleanPath then cleanPath else ops.join allowedDir cleanPath
  let resolvedPath :=
    match ops.evalSymlinks absPath with
    | some rp => rp
    | none =>
      match ops.evalSymlinks (ops.dir absPath) with
      | none => absPath
      | some resolvedDir => ops.join resolvedDir (ops.base absPath)
  if ¬ (strHasPre allowedDir resolvedPath = true) then
    .error ("path '" ++ path ++ "' is outside allowed directory '" ++ allowedDir ++ "'")
  else if hasDotDot path.data then
    .error ("path traversal detected in path: " ++ path)
  else
    .ok resolvedPath

/-- Mirrors the first Dockerfile-adjacent `PathValidator.ValidatePath`
variant: reject `..` outright, clean, strip a leading `/`, join under the
allowed directory, resolve symlinks (falling back to the unresolved path),
and reject when the path relative to the root starts with `..`. -/
def PathValidatorV1.ValidatePath (ops : PathOps) (allowedDir path : String) : Except String String :=
  if hasDotDot path.data then
    .error "path contains invalid characters: .."
  else
    let cleanPath := ops.clean path
    let cleanPath := if strHasPre "/" cleanPath then cleanPath.drop 1 else cleanPath
    let absPath := ops.join allowedDir cleanPath
    let resolvedPath := (ops.evalSymlinks absPath).getD absPath
    match ops.rel allowedDir resolvedPath with
    | none => .error "failed to determine relative path"
    | some relPath =>
      if strHasPre ".." relPath then .error "path is outside allowed directory"
      else .ok resolvedPath

/-- Mirrors the second Dockerfile-adjacent `PathValidator.ValidatePath`
variant: reject `..` outright, require a leading `/`, clean, join under
the allowed directory, resolve symlinks, and reject when the path relative
to the root starts with `..`. -/
def PathValidatorV2.ValidatePath (ops : PathOps) (allowedDir path : String) : Except String String :=
  if hasDotDot path.data then
    .error "path contains invalid characters"
  else if ¬ (strHasPre "/" path = true) then
    .error "relative paths are not allowed, use absolute paths starting with /"
  else
    let cleanPath := ops.clean path
    let absPath := ops.join allowedDir cleanPath
    let resolvedPath := (ops.evalSymlinks absPath).getD absPath
    match ops.rel allowedDir resolvedPath with
    | none => .error "failed to determine relative path"
    | some relPath =>
      if strHasPre ".." relPath then .error "path is outside allowed directory"
      else .ok resolvedPath

/-! ## transfer.Validator.ValidateSourcePath : glob expansion -/

/-- The three answers `os.Lstat` can give about the kind of an entry. -/
inductive FileKind
  | regular
  | dir
  | other
deriving DecidableEq

/-- Oracles for `filepath.Glob` and `os.Lstat`; `none` models the library
call returning an error. -/
structure GlobEnv where
  glob : String → Option (List String)
  lstatKind : String → Option FileKind

/-- Mirrors `transfer.Validator.ValidateSourcePath` (handler.go): reject
`..`, glob the cleaned/rooted pattern, fail on zero matches, then keep
exactly the matches that lie under the allowed directory and are regular
files (`Lstat` errors and non-regular entries are silently skipped), and
fail when nothing survives. -/
def Validator.ValidateSourcePath (ops : PathOps) (env : GlobEnv) (allowedDir path : String) :
    Except String (List String) :=
  if hasDotDot path.data then
    .error ("path traversal detected in path: " ++ path)
  else
    match env.glob (if ops.isAbs (ops.clean path) then ops.clean path
        else ops.join allowedDir (ops.clean path)) with
    | none => .error "invalid glob pattern"
    | some matchList =>
      if matchList.length = 0 then
        .error ("no files match pattern: " ++ path)
      else
        if (matchList.filter (fun m =>
            strHasPre allowedDir m && (env.lstatKind m == some FileKind.regular))).length = 0 then
          .error ("no valid files found matching pattern: " ++ path)
        else
          .ok (matchList.filter (fun m =>
            strHasPre allowedDir m && (env.lstatKind m == some FileKind.regular)))

/-! ## transfer.Sender.SendFile : the chunker (handler.go) -/

/-- `transfer.ChunkSize` (handler.go): 1 MiB. -/
def ChunkSize : Nat := 1024 * 1024

/-- Mirrors `pb.FileChunk` for the handler.go protocol. -/
structure FileChunk where
  FileId : String := ""
  FilePath : String := ""
  TotalSize : Nat := 0
  Offset : Nat := 0
  Data : List Nat := []
  Checksum : Nat := 0
  IsLast : Bool := false
deriving DecidableEq

/-- The read/send loop of `transfer.Sender.SendFile`. A read on a regular
`os.File` returns `min ChunkSize remaining` bytes with a nil error while
bytes remain, and `(0, io.EOF)` afterwards, so the loop emits one chunk per
full window; `IsLast` is set when the cumulative offset reaches the
declared total size. `n = 0` (the empty file) emits nothing. -/
def sendChunksLoop (hash : List Nat → Nat) (fileID relativePath : String) (totalSize : Nat) :
    Nat → List Nat → List FileChunk
  | _, [] => []
  | offset, b :: rest' =>
    let rest := b :: rest'
    let n := min ChunkSize rest.length
    let payload := rest.take ChunkSize
    let isLast := decide (totalSize ≤ offset + n)
    let chunk : FileChunk := { FileId := fileID, FilePath := relativePath,
                               TotalSize := totalSize, Offset := offset, Data := payload,
                               Checksum := hash payload, IsLast := isLast }
    if isLast then [chunk]
    else chunk :: sendChunksLoop hash fileID relativePath totalSize (offset + n) (rest.drop ChunkSize)
termination_by _o l => l.length
decreasing_by
  simp only [List.length_drop, List.length_cons, ChunkSize]
  omega

/-- The chunk stream `transfer.Sender.SendFile` hands to the transport for
a source file with the given contents (`totalSize` comes from `Stat`). -/
def SendFileChunks (hash : List Nat → Nat) (fileID relativePath : String) (data : List Nat) :
    List FileChunk :=
  sendChunksLoop hash fileID relativePath data.length 0 data

/-! ## transfer.Receiver.ReceiveFile : the receiver state machine -/

/-- Mirrors `pb.TransferStatus` (the `TransferSpeedMbps` field is omitted:
it is time-derived and no claim mentions it). -/
structure TransferStatus where
  FileId : String := ""
  FilePath : String := ""
  BytesTransferred : Nat := 0
  TotalSize : Nat := 0
  ProgressPercent : ℚ := 0
  Status : String := ""
  ErrorMessage : String := ""
deriving DecidableEq

/-- The receiver's per-file loop variables (`fileID`, `filePath`,
`totalSize`, `received`); `none` models `currentFile == nil ∧ fileID == ""`. -/
structure OpenFileInfo where
  fileID : String
  filePath : String
  totalSize : Nat
  received : Nat
deriving DecidableEq

/-- The receiver-side state: loop variables, in-memory filesystem, tracker. -/
structure RecvState where
  cur : Option OpenFileInfo
  fs : String → Option (List Nat)
  tracker : Tracker

/-- Point update of the in-memory filesystem. -/
def setFs (fs : String → Option (List Nat)) (p : String) (v : Option (List Nat)) :
    String → Option (List Nat) :=
  fun q => if q = p then v else fs q

/-- `file.WriteAt(data, off)` on in-memory contents (POSIX semantics:
holes are zero-filled). -/
def writeAt (content : List Nat) (off : Nat) (data : List Nat) : List Nat :=
  content.take off ++ List.replicate (off - content.length) 0 ++ data ++
    content.drop (off + data.length)

/-- The status frame `Receiver.sendErrorStatus` emits. -/
def errorStatus (fileID msg : String) : TransferStatus :=
  { FileId := fileID, Status := "error", ErrorMessage := msg }

/-- Mirrors `Receiver.finalizeFile`: compare received bytes against the
declared total size; mismatch fails the transfer, match completes it and
emits the terminal success status. -/
def finalizeFile (st : RecvState) (fileID filePath : String) (totalSize received : Nat) :
    List TransferStatus × RecvState × Except String Unit :=
  if received ≠ totalSize then
    let msg := "incomplete transfer: received " ++ toString received ++
      " bytes, expected " ++ toString totalSize
    ([errorStatus fileID msg],
     { st with tracker := failTransfer st.tracker fileID msg }, .error msg)
  else
    ([{ FileId := fileID, FilePath := filePath, BytesTransferred := received,
        TotalSize := totalSize, ProgressPercent := 100, Status := "completed" }],
     { st with tracker := completeTransfer st.tracker fileID }, .ok ())

/-- The initialization block of `Receiver.ReceiveFile` for the first chunk
of a new file: validate the destination, create (truncate) the file, and
register the transfer. `MkdirAll`/`Create` cannot fail in the pure model. -/
def initFile (validate : String → Except String String) (st : RecvState) (chunk : FileChunk) :
    List TransferStatus × RecvState × Except String OpenFileInfo :=
  match validate chunk.FilePath with
  | .error e =>
    let msg := "invalid destination path: " ++ e
    ([errorStatus chunk.FileId msg], st, .error msg)
  | .ok validatedPath =>
    let f : OpenFileInfo := { fileID := chunk.FileId, filePath := validatedPath,
                              totalSize := chunk.TotalSize, received := 0 }
    ([], { cur := some f, fs := setFs st.fs validatedPath (some []),
           tracker := startTransfer st.tracker chunk.FileId validatedPath chunk.TotalSize },
     .ok f)

/-- The demultiplexing step of `Receiver.ReceiveFile`: keep the open file
when the chunk continues it, otherwise finalize the previous file (if any)
and initialize the new one. -/
def openForChunk (validate : String → Except String String) (st : RecvState) (chunk : FileChunk) :
    List TransferStatus × RecvState × Except String OpenFileInfo :=
  match st.cur with
  | some f =>
    if f.fileID ≠ "" ∧ f.fileID = chunk.FileId then ([], st, .ok f)
    else
      match finalizeFile st f.fileID f.filePath f.totalSize f.received with
      | (evs, st₁, .error e) => (evs, st₁, .error e)
      | (evs, st₁, .ok _) =>
        match initFile validate { st₁ with cur := none } chunk with
        | (evs₂, st₂, r) => (evs ++ evs₂, st₂, r)
  | none => initFile validate st chunk

/-- One iteration of the `Receiver.ReceiveFile` loop body on a received
chunk: demultiplex, verify the digest, write at the chunk offset, advance
the byte counter, update and report progress, and finalize on the last
chunk. The third component is `some msg` when the loop aborts. -/
def handleChunk (validate : String → Except String String) (hash : List Nat → Nat)
    (st : RecvState) (chunk : FileChunk) :
    List TransferStatus × RecvState × Option String :=
  match openForChunk validate st chunk with
  | (evs, st₁, .error e) => (evs, st₁, some e)
  | (evs, st₁, .ok f) =>
    if hash chunk.Data ≠ chunk.Checksum then
      let msg := "checksum mismatch at offset " ++ toString chunk.Offset
      (evs ++ [errorStatus f.fileID msg],
       { st₁ with tracker := failTransfer st₁.tracker f.fileID msg }, some msg)
    else
      let content := (st₁.fs f.filePath).getD []
      let fs := setFs st₁.fs f.filePath (some (writeAt content chunk.Offset chunk.Data))
      let received := f.received + chunk.Data.length
      let tracker := updateProgress st₁.tracker f.fileID received
      let pct := match getProgress tracker f.fileID with
        | some fp => GetProgressPercent fp
        | none => 0
      let status : TransferStatus := { FileId := f.fileID, FilePath := f.filePath,
                                       BytesTransferred := received, TotalSize := f.totalSize,
                                       ProgressPercent := pct, Status := "in_progress" }
      let st₂ : RecvState := { cur := some { f with received := received }, fs := fs,
                               tracker := tracker }
      if chunk.IsLast then
        match finalizeFile st₂ f.fileID f.filePath f.totalSize received with
        | (evs₂, st₃, .error e) => (evs ++ [status] ++ evs₂, st₃, some e)
        | (evs₂, st₃, .ok _) => (evs ++ [status] ++ evs₂, { st₃ with cur := none }, none)
      else (evs ++ [status], st₂, none)

/-- Prefix already-emitted status frames onto a loop continuation. -/
def prependEvs {α : Type} (evs : List TransferStatus)
    (out : List TransferStatus × RecvState × α) :
    List TransferStatus × RecvState × α :=
  (evs ++ out.1, out.2.1, out.2.2)

/-- The receive loop of `Receiver.ReceiveFile` over the remaining stream;
end of the list is `io.EOF`, which finalizes a still-open file. -/
def recvRun (validate : String → Except String String) (hash : List Nat → Nat)
    (st : RecvState) : List FileChunk → List TransferStatus × RecvState × Except String Unit
  | [] =>
    match st.cur with
    | none => ([], st, .ok ())
    | some f =>
      match finalizeFile st f.fileID f.filePath f.totalSize f.received with
      | (evs, st₁, r) => (evs, { st₁ with cur := none }, r)
  | chunk :: rest =>
    match handleChunk validate hash st chunk with
    | (evs, st₁, some e) => (evs, st₁, .error e)
    | (evs, st₁, none) => prependEvs evs (recvRun validate hash st₁ rest)

/-- `Receiver.ReceiveFile` from the initial state. -/
def ReceiveFile (validate : String → Except String String) (hash : List Nat → Nat)
    (fs0 : String → Option (List Nat)) (tr0 : Tracker) (chunks : List FileChunk) :
    List TransferStatus × RecvState × Except String Unit :=
  recvRun validate hash { cur := none, fs := fs0, tracker := tr0 } chunks

/-! ## grpc.Client.transferSingleFile : the retry loop (tracker.go) -/

/-- Observable outcome of one `transferSingleFile` call: how many attempts
ran, the sleeps performed (one entry per `time.Sleep`, in delay units), and
the result; a permanent failure carries `(retryCount, lastErr)` from
`fmt.Errorf("failed after %d retries: %w", c.retryCount, lastErr)`. -/
structure RetryOutcome where
  attempts : Nat
  sleeps : List Nat
  result : Except (Nat × String) Unit

/-- The loop `for attempt := 0; attempt <= c.retryCount; attempt++` of
`transferSingleFile`: sleep `retryDelay` before every attempt except the
first, run the attempt (stream creation and `SendFile` collapsed into one
fallible action), stop on the first success; `fuel` counts the remaining
loop iterations, so it starts at `retryCount + 1`. -/
def retryGo (attemptRes : Nat → Except String Unit) (retryCount retryDelay : Nat) :
    Nat → Nat → String → RetryOutcome
  | _, 0, lastErr => { attempts := 0, sleeps := [], result := .error (retryCount, lastErr) }
  | attempt, fuel + 1, _ =>
    let sleeps : List Nat := if 0 < attempt then [retryDelay] else []
    match attemptRes attempt with
    | .ok _ => { attempts := 1, sleeps := sleeps, result := .ok () }
    | .error e =>
      let r := retryGo attemptRes retryCount retryDelay (attempt + 1) fuel e
      { attempts := r.attempts + 1, sleeps := sleeps ++ r.sleeps, result := r.result }

/-- `grpc.Client.transferSingleFile` with the configuration installed by
`NewClient`: `retryCount = 3`, `retryDelay = 2` seconds. -/
def transferSingleFile (attemptRes : Nat → Except String Unit) : RetryOutcome :=
  retryGo attemptRes 3 2 0 (3 + 1) ""

/-! ## part_008 : `Server.sendFile` and `Server.Transfer` (hex-digest protocol) -/

/-- Mirrors `pb.FileChunk` of the part_008 protocol (its digest is a hex
string in Go; digests are abstract here). -/
structure P8FileChunk where
  FilePath : String := ""
  Data : List Nat := []
  Offset : Nat := 0
  TotalSize : Nat := 0
  Checksum : Nat := 0
  IsLast : Bool := false
deriving DecidableEq

/-- Mirrors `pb.TransferResponse` of the part_008 protocol. -/
structure P8TransferResponse where
  Success : Bool := false
  Message : String := ""
  BytesTransferred : Nat := 0
deriving DecidableEq

/-- The nonempty-file loop of part_008 `Server.sendFile`. `os.File` reads
report `io.EOF` only on the read after the final byte, so `IsLast`
(`err == io.EOF`) is false on every chunk this loop actually sends. -/
def p8SendChunksLoop (hash : List Nat → Nat) (destPath : String) (totalSize : Nat) :
    Nat → List Nat → List P8FileChunk
  | _, [] => []
  | offset, b :: rest' =>
    let rest := b :: rest'
    let n := min ChunkSize rest.length
    let payload := rest.take ChunkSize
    let chunk : P8FileChunk := { FilePath := destPath, Data := payload, Offset := offset,
                                 TotalSize := totalSize, Checksum := hash payload,
                                 IsLast := false }
    chunk :: p8SendChunksLoop hash destPath totalSize (offset + n) (rest.drop ChunkSize)
termination_by _o l => l.length
decreasing_by
  simp only [List.length_drop, List.length_cons, ChunkSize]
  omega

/-- The chunk stream part_008 `Server.sendFile` sends for a source file
with the given contents: a zero-byte source emits exactly one empty chunk
with the digest of the empty payload and the last-chunk flag set. -/
def p8SendFile (hash : List Nat → Nat) (destPath : String) (data : List Nat) :
    List P8FileChunk :=
  if data.length = 0 then
    [{ FilePath := destPath, Data := [], Offset := 0, TotalSize := 0,
       Checksum := hash [], IsLast := true }]
  else p8SendChunksLoop hash destPath data.length 0 data

/-- The open-or-reopen step of part_008 `Server.Transfer`
(`ValidateAndEnsureDir` is the oracle `validateEnsure`); on success it
returns the requested/validated paths, the filesystem after `os.Create`,
and the reset byte counter. -/
def p8Open (validateEnsure : String → Except String String)
    (cur : Option (String × String)) (fs : String → Option (List Nat)) (received : Nat)
    (c : P8FileChunk) :
    Except P8TransferResponse ((String × String) × (String → Option (List Nat)) × Nat) :=
  let init : Except P8TransferResponse ((String × String) × (String → Option (List Nat)) × Nat) :=
    match validateEnsure c.FilePath with
    | .error e => .error { Success := false, Message := "Path validation failed: " ++ e }
    | .ok vp => .ok ((c.FilePath, vp), setFs fs vp (some []), 0)
  match cur with
  | some (reqPath, vp) =>
    if reqPath = c.FilePath then .ok ((reqPath, vp), fs, received)
    else init
  | none => init

/-- The receive loop of part_008 `Server.Transfer`: open/reopen on path
change, verify the digest, append the payload (`file.Write`), report the
running byte count, and stop on the last-chunk flag or end of stream. -/
def p8Run (validateEnsure : String → Except String String) (hash : List Nat → Nat) :
    Option (String × String) → Nat → (String → Option (List Nat)) → List P8FileChunk →
    List P8TransferResponse × (String → Option (List Nat)) × Except String Unit
  | _, _, fs, [] => ([], fs, .ok ())
  | cur, received, fs, c :: rest =>
    match p8Open validateEnsure cur fs received c with
    | .error resp => ([resp], fs, .error "path validation failed")
    | .ok ((reqPath, vp), fs₁, received₁) =>
      if hash c.Data ≠ c.Checksum then
        ([{ Success := false, Message := "Checksum mismatch" }], fs₁, .error "checksum mismatch")
      else
        let content := (fs₁ vp).getD []
        let fs₂ := setFs fs₁ vp (some (content ++ c.Data))
        let received₂ := received₁ + c.Data.length
        let resp : P8TransferResponse := { Success := true, Message := "Chunk received",
                                           BytesTransferred := received₂ }
        if c.IsLast then ([resp], fs₂, .ok ())
        else
          match p8Run validateEnsure hash (some (reqPath, vp)) received₂ fs₂ rest with
          | (resps, fs₃, r) => (resp :: resps, fs₃, r)

/-! ## server/grpc_server.go : `FileTransferServer.Transfer` (metadata protocol) -/

/-- The `TransferRequest` payload variants of the metadata-first protocol. -/
inductive TMsg
  | metadata (filePath : String) (fileSize : Nat)
  | chunk (data : List Nat)
  | complete (bytesTransferred : Nat)
deriving DecidableEq

/-- Mirrors `pb.TransferResponse` of the metadata-first protocol. -/
structure GTransferResponse where
  Success : Bool := false
  Message : String := ""
  BytesReceived : Nat := 0
deriving DecidableEq

/-- gRPC status codes used by `FileTransferServer.Transfer`. -/
inductive GCode
  | invalidArgument
  | internal
  | dataLoss
deriving DecidableEq

/-- Oracles for `filepath.Clean`, `filepath.IsAbs` and `filepath.Join` in
`FileTransferServer.Transfer`. -/
structure GrpcEnv where
  clean : String → String
  isAbs : String → Bool
  join : String → String → String

/-- The chunk/complete loop of `FileTransferServer.Transfer`. The deferred
cleanup removes the target file on every exit where the transfer was not
marked successful; end of the message list is a `Recv` failure (Go treats
`io.EOF` and transport errors identically here). -/
def grpcLoop (fs : String → Option (List Nat)) (targetPath : String) (bytes : Nat) :
    List TMsg → (String → Option (List Nat)) × Except (GCode × String) GTransferResponse
  | [] => (setFs fs targetPath none, .error (.internal, "failed to receive chunk"))
  | .chunk data :: rest =>
    let content := (fs targetPath).getD []
    grpcLoop (setFs fs targetPath (some (content ++ data))) targetPath (bytes + data.length) rest
  | .complete declared :: _ =>
    if bytes ≠ declared then
      (setFs fs targetPath none, .error (.dataLoss, "byte count mismatch"))
    else
      (fs, .ok { Success := true, Message := "transfer completed", BytesReceived := bytes })
  | .metadata _ _ :: _ =>
    (setFs fs targetPath none, .error (.invalidArgument, "unexpected message type"))

/-- Mirrors `FileTransferServer.Transfer`: first message must be metadata,
the path must clean to a relative path not starting with `..`, the file is
created (truncated) at `rootDir/cleanPath`, then the chunk/complete loop
runs. The first component reports the created target path, if any. -/
def grpcTransfer (env : GrpcEnv) (rootDir : String) (fs0 : String → Option (List Nat))
    (msgs : List TMsg) :
    Option String × (String → Option (List Nat)) × Except (GCode × String) GTransferResponse :=
  match msgs with
  | [] => (none, fs0, .error (.internal, "failed to receive metadata"))
  | .chunk _ :: _ => (none, fs0, .error (.invalidArgument, "expected metadata as first message"))
  | .complete _ :: _ => (none, fs0, .error (.invalidArgument, "expected metadata as first message"))
  | .metadata fp _ :: rest =>
    let cleanPath := env.clean fp
    if strHasPre ".." cleanPath = true ∨ env.isAbs cleanPath = true then
      (none, fs0, .error (.invalidArgument, "invalid file path: " ++ fp))
    else
      let targetPath := env.join rootDir cleanPath
      (some targetPath,
       (grpcLoop (setFs fs0 targetPath (some [])) targetPath 0 rest).1,
       (grpcLoop (setFs fs0 targetPath (some [])) targetPath 0 rest).2)

/-! ## Concrete oracle instantiations used by witnesses and counterexamples -/

/-- Trivial oracle instantiation: paths pass through unchanged and every
filesystem query succeeds on the identity. -/
def plainOps : PathOps where
  clean := id
  isAbs := fun s => strHasPre "/" s
  join := fun a b => a ++ "/" ++ b
  dir := id
  base := id
  evalSymlinks := fun p => some p
  rel := fun _ t => some t

/-- Glob oracle for the C8 counterexample: the pattern `/data/sub` matches
the directory `/data/sub`, which contains the regular file
`/data/sub/f.txt`. -/
def c8Env : GlobEnv where
  glob := fun p => if p = "/data/sub" then some ["/data/sub"] else some []
  lstatKind := fun p =>
    if p = "/data/sub" then some FileKind.dir
    else if p = "/data/sub/f.txt" then some FileKind.regular
    else none

/-- Glob oracle for the C8 witness: the pattern `/data/out` matches only
`/other/x.txt`, which lies outside the allowed directory. -/
def c8wEnv : GlobEnv where
  glob := fun p => if p = "/data/out" then some ["/other/x.txt"] else some []
  lstatKind := fun p => if p = "/other/x.txt" then some FileKind.regular else none

/-- An attempt function that fails every time (C6 witness). -/
def alwaysFailAttempt : Nat → Except String Unit :=
  fun _ => .error "rpc error: connection refused"

/-- An attempt function whose first two attempts fail and whose third
succeeds (C6 witness). -/
def thirdTimeAttempt : Nat → Except String Unit :=
  fun i => if i < 2 then .error "rpc error: connection refused" else .ok ()

/-- An executable stand-in digest function for witnesses. -/
def wHash : List Nat → Nat := fun l => l.sum * 31 + l.length

/-- A destination validator for witnesses: roots every path under `/data`. -/
def wValidate : String → Except String String := fun p => .ok ("/data/" ++ p)

/-- The empty in-memory filesystem. -/
def emptyFs : String → Option (List Nat) := fun _ => none

/-- A receiver state holding one in-flight transfer of 10 bytes (C4 witness). -/
def demoRecvState : RecvState :=
  { cur := none, fs := emptyFs, tracker := startTransfer NewTracker "t1" "/data/x.bin" 10 }

/-- A digest-correct non-last chunk of the witness transfer (C3 witness). -/
def goodChunk : FileChunk :=
  { FileId := "id1", FilePath := "f.txt", TotalSize := 5, Offset := 0, Data := [1, 2],
    Checksum := wHash [1, 2], IsLast := false }

/-- A chunk whose declared digest does not match its payload (C3 witness). -/
def badChunk : FileChunk :=
  { FileId := "id1", FilePath := "f.txt", TotalSize := 5, Offset := 2, Data := [3],
    Checksum := wHash [3] + 1, IsLast := false }

/-- A trailing chunk that must never be processed (C3 witness). -/
def tailChunk : FileChunk :=
  { FileId := "id1", FilePath := "f.txt", TotalSize := 5, Offset := 3, Data := [4, 5],
    Checksum := wHash [4, 5], IsLast := true }

/-- Path oracles for the metadata-protocol server (C10 witness). -/
def gEnv : GrpcEnv where
  clean := id
  isAbs := fun _ => false
  join := fun a b => a ++ "/" ++ b

/-- A message stream whose completion total disagrees with the bytes
actually sent (C10 witness). -/
def gMsgs : List TMsg := [.metadata "f.txt" 99, .chunk [1, 2, 3], .complete 99]

/-! # Theorems -/

/-! ## Claim C2 : traversal rejection -/

theorem hasDotDot_cons (c : Char) {t : List Char} (h : hasDotDot t = true) :
    hasDotDot (c :: t) = true := by
  cases t with
  | nil => simp [hasDotDot] at h
  | cons c₂ t' => simp [hasDotDot] at h ⊢; exact Or.inr h

theorem splitOnSlash_ne_nil (l : List Char) : splitOnSlash l ≠ [] := by
  cases l with
  | nil => simp [splitOnSlash]
  | cons c t =>
    by_cases hc : c = '/'
    · simp [splitOnSlash, hc]
    · simp only [splitOnSlash, if_neg hc]
      cases h : splitOnSlash t with
      | nil => simp [consHead]
      | cons a b => simp [consHead]

/-- The first component of `splitOnSlash l` is a prefix of `l`. -/
theorem splitOnSlash_head_pre (l : List Char) (h : List Char) (r : List (List Char))
    (hs : splitOnSlash l = h :: r) : ∃ u, l = h ++ u := by
  induction l generalizing h r with
  | nil =>
    simp [splitOnSlash] at hs
    exact ⟨[], by simp [hs.1]⟩
  | cons c t ih =>
    by_cases hc : c = '/'
    · simp [splitOnSlash, hc] at hs
      exact ⟨c :: t, by simp [hs.1]⟩
    · simp only [splitOnSlash, if_neg hc] at hs
      cases hsp : splitOnSlash t with
      | nil => exact absurd hsp (splitOnSlash_ne_nil t)
      | cons h' r' =>
        rw [hsp] at hs
        simp [consHead] at hs
        obtain ⟨u, hu⟩ := ih h' r' hsp
        exact ⟨u, by simp [← hs.1, hu]⟩

/-- A `..` segment implies the Go-level substring check fires. -/
theorem DotDotSegment.to_hasDotDot {s : String} (h : DotDotSegment s) :
    hasDotDot s.data = true := by
  unfold DotDotSegment at h
  generalize s.data = l at h ⊢
  clear s
  induction l with
  | nil => simp [splitOnSlash] at h
  | cons c t ih =>
    by_cases hc : c = '/'
    · rw [splitOnSlash, if_pos hc] at h
      rcases List.mem_cons.mp h with h | h
      · simp at h
      · exact hasDotDot_cons c (ih h)
    · rw [splitOnSlash, if_neg hc] at h
      cases hsp : splitOnSlash t with
      | nil => exact absurd hsp (splitOnSlash_ne_nil t)
      | cons h' r' =>
        rw [hsp] at h
        rw [consHead] at h
        rcases List.mem_cons.mp h with h | h
        · obtain ⟨hc1, hh⟩ : c = '.' ∧ h' = ['.'] := by
            have := h.symm
            simpa using this
          obtain ⟨u, hu⟩ := splitOnSlash_head_pre t h' r' hsp
          rw [hh] at hu
          subst hc1
          rw [hu]
          simp [hasDotDot]
        · have hmem : ['.', '.'] ∈ splitOnSlash t := by
            rw [hsp]; exact List.mem_cons_of_mem _ h
          exact hasDotDot_cons c (ih hmem)

/-- Claim C2: every input path containing a `..` segment (absolute or
relative, single or nested) is rejected by all three path-validator
variants — `validate` returns a traversal/outside-root error and never a
validated path, for every allowed directory and every behaviour of the
filesystem oracles. -/
theorem C2_traversal_rejected (ops : PathOps) (allowedDir path : String)
    (h : DotDotSegment path) :
    isErr (Validator.ValidatePath ops allowedDir path) = true ∧
    isErr (PathValidatorV1.ValidatePath ops allowedDir path) = true ∧
    isErr (PathValidatorV2.ValidatePath ops allowedDir path) = true := by
  have hc : hasDotDot path.data = true := h.to_hasDotDot
  refine ⟨?_, ?_, ?_⟩
  · unfold Validator.ValidatePath
    simp only [hc]
    split <;> split <;> simp [isErr]
  · unfold PathValidatorV1.ValidatePath
    simp [hc, isErr]
  · unfold PathValidatorV2.ValidatePath
    simp [hc, isErr]

/-- Witness for C2 at the concrete traversal path `/a/../../etc/passwd`. -/
theorem C2_traversal_rejected_witness :
    isErr (Validator.ValidatePath plainOps "/data" "/a/../../etc/passwd") = true ∧
    isErr (PathValidatorV1.ValidatePath plainOps "/data" "/a/../../etc/passwd") = true ∧
    isErr (PathValidatorV2.ValidatePath plainOps "/data" "/a/../../etc/passwd") = true :=
  C2_traversal_rejected plainOps "/data" "/a/../../etc/passwd" (by decide)

/-! ## Claim C9 : transfer-rate derivation (corrected) -/

/-- Counterexample to C9 as stated: at 1048576 bytes transferred over 1
elapsed second, the claim predicts a rate of `b / e = 1048576` bytes per
second, but `GetTransferSpeed` returns `1` — the code reports megabytes
per second, not bytes per second. -/
theorem C9_rate_counterexample :
    GetTransferSpeed { BytesTransferred := 1048576 } 1 = 1 ∧
    (1048576 : ℚ) / 1 ≠ 1 := by
  constructor
  · unfold GetTransferSpeed
    norm_num
  · norm_num

/-- Claim C9 (amended): for every tracked transfer, the derived
transfer-rate query returns `(b / e) / 2^20` — bytes per second scaled to
megabytes per second — and returns `0` when the elapsed time is `0`. -/
theorem C9_rate_mbps (fp : FileProgress) (e : ℚ) :
    (e ≠ 0 → GetTransferSpeed fp e * (1024 * 1024) * e = fp.BytesTransferred) ∧
    GetTransferSpeed fp 0 = 0 := by
  constructor
  · intro he
    unfold GetTransferSpeed
    rw [if_neg he]
    field_simp
    ring
  · unfold GetTransferSpeed
    simp

/-- Witness for C9 at 4 MiB transferred over 2 seconds. -/
theorem C9_rate_mbps_witness :
    GetTransferSpeed { BytesTransferred := 4194304 } 2 * (1024 * 1024) * 2 =
      (({ BytesTransferred := 4194304 } : FileProgress).BytesTransferred : ℚ) :=
  (C9_rate_mbps { BytesTransferred := 4194304 } 2).1 (by norm_num)

/-! ## Claim C6 : retry bound -/

theorem retryGo_all_fail (f : Nat → Except String Unit) (rc d : Nat)
    (h : ∀ i, isErr (f i) = true) :
    ∀ fuel attempt lastErr,
      (retryGo f rc d attempt fuel lastErr).attempts = fuel ∧
      (retryGo f rc d attempt fuel lastErr).sleeps =
        (if attempt = 0 then List.replicate (fuel - 1) d else List.replicate fuel d) ∧
      ∃ e, (retryGo f rc d attempt fuel lastErr).result = .error (rc, e) := by
  intro fuel
  induction fuel with
  | zero =>
    intro attempt lastErr
    refine ⟨rfl, ?_, lastErr, rfl⟩
    simp [retryGo]
  | succ fuel ih =>
    intro attempt lastErr
    have hf := h attempt
    cases hres : f attempt with
    | ok u => rw [hres] at hf; simp [isErr] at hf
    | error e =>
      obtain ⟨iha, ihs, iherr⟩ := ih (attempt + 1) e
      have hone : ¬ (attempt + 1 = 0) := Nat.succ_ne_zero attempt
      constructor
      · simp only [retryGo, hres]
        rw [iha]
      constructor
      · simp only [retryGo, hres]
        rw [ihs, if_neg hone]
        by_cases ha : attempt = 0
        · subst ha; simp
        · rw [if_neg ha]
          have : 0 < attempt := Nat.pos_of_ne_zero ha
          simp [this, List.replicate_succ]
      · obtain ⟨e', he'⟩ := iherr
        refine ⟨e', ?_⟩
        simp only [retryGo, hres]
        exact he'

theorem retryGo_first_success (f : Nat → Except String Unit) (rc d : Nat) :
    ∀ k fuel attempt lastErr, k < fuel →
      (∀ j, j < k → isErr (f (attempt + j)) = true) →
      isErr (f (attempt + k)) = false →
      (retryGo f rc d attempt fuel lastErr).attempts = k + 1 ∧
      (retryGo f rc d attempt fuel lastErr).result = .ok () ∧
      (retryGo f rc d attempt fuel lastErr).sleeps =
        (if attempt = 0 then List.replicate k d else List.replicate (k + 1) d) := by
  intro k
  induction k with
  | zero =>
    intro fuel attempt lastErr hk _ hok
    obtain ⟨fuel', rfl⟩ : ∃ fuel', fuel = fuel' + 1 := by
      cases fuel with
      | zero => omega
      | succ n => exact ⟨n, rfl⟩
    rw [Nat.add_zero] at hok
    cases hres : f attempt with
    | error e => rw [hres] at hok; simp [isErr] at hok
    | ok u =>
      refine ⟨by simp [retryGo, hres], by simp [retryGo, hres], ?_⟩
      simp only [retryGo, hres]
      by_cases ha : attempt = 0
      · subst ha; simp
      · have : 0 < attempt := Nat.pos_of_ne_zero ha
        simp [ha, this, List.replicate_succ]
  | succ k ih =>
    intro fuel attempt lastErr hk hfail hok
    obtain ⟨fuel', rfl⟩ : ∃ fuel', fuel = fuel' + 1 := by
      cases fuel with
      | zero => omega
      | succ n => exact ⟨n, rfl⟩
    have h0 := hfail 0 (Nat.succ_pos k)
    rw [Nat.add_zero] at h0
    cases hres : f attempt with
    | ok u => rw [hres] at h0; simp [isErr] at h0
    | error e =>
      have hfail' : ∀ j, j < k → isErr (f (attempt + 1 + j)) = true := by
        intro j hj
        have := hfail (j + 1) (Nat.succ_lt_succ hj)
        rwa [show attempt + (j + 1) = attempt + 1 + j by omega] at this
      have hok' : isErr (f (attempt + 1 + k)) = false := by
        rwa [show attempt + 1 + k = attempt + (k + 1) by omega]
      obtain ⟨iha, ihr, ihs⟩ := ih fuel' (attempt + 1) e (by omega) hfail' hok'
      refine ⟨?_, ?_, ?_⟩
      · simp only [retryGo, hres]
        rw [iha]
      · simp only [retryGo, hres]
        exact ihr
      · simp only [retryGo, hres]
        rw [ihs, if_neg (Nat.succ_ne_zero attempt)]
        by_cases ha : attempt = 0
        · subst ha; simp [List.replicate_succ]
        · have : 0 < attempt := Nat.pos_of_ne_zero ha
          simp [ha, this, List.replicate_succ]

/-- Claim C6: when every attempt fails, `transferSingleFile` runs the
whole-file send 4 times in total — the initial attempt plus exactly the
configured 3 retries — sleeping the configured 2-second delay before each
retry (and only before retries), and returns a permanent failure naming
the exhausted retry count 3; a successful attempt stops the loop
immediately with no further sleeps. -/
theorem C6_retry_bound (f : Nat → Except String Unit) :
    ((∀ i, isErr (f i) = true) →
      (transferSingleFile f).attempts = 1 + 3 ∧
      (transferSingleFile f).sleeps = [2, 2, 2] ∧
      ∃ e, (transferSingleFile f).result = .error (3, e)) ∧
    (∀ k, k < 4 → (∀ j, j < k → isErr (f j) = true) → isErr (f k) = false →
      (transferSingleFile f).attempts = k + 1 ∧
      (transferSingleFile f).result = .ok () ∧
      (transferSingleFile f).sleeps = List.replicate k 2) := by
  constructor
  · intro h
    obtain ⟨ha, hs, he⟩ := retryGo_all_fail f 3 2 h (3 + 1) 0 ""
    refine ⟨ha, ?_, he⟩
    unfold transferSingleFile
    rw [hs]
    decide
  · intro k hk hfail hok
    have hfail' : ∀ j, j < k → isErr (f (0 + j)) = true := by
      intro j hj; rw [Nat.zero_add]; exact hfail j hj
    have hok' : isErr (f (0 + k)) = false := by rw [Nat.zero_add]; exact hok
    obtain ⟨ha, hr, hs⟩ := retryGo_first_success f 3 2 k (3 + 1) 0 "" hk hfail' hok'
    exact ⟨ha, hr, by unfold transferSingleFile; rw [hs]; simp⟩

/-- Witness for C6: an always-failing attempt function yields 4 attempts
and three 2-second sleeps; an attempt function succeeding on its third try
(two prior failures) yields 3 attempts and two sleeps. -/
theorem C6_retry_bound_witness :
    ((transferSingleFile alwaysFailAttempt).attempts = 1 + 3 ∧
     (transferSingleFile alwaysFailAttempt).sleeps = [2, 2, 2]) ∧
    ((transferSingleFile thirdTimeAttempt).attempts = 2 + 1 ∧
     (transferSingleFile thirdTimeAttempt).sleeps = List.replicate 2 2) :=
  ⟨⟨((C6_retry_bound alwaysFailAttempt).1 (fun _ => rfl)).1,
    ((C6_retry_bound alwaysFailAttempt).1 (fun _ => rfl)).2.1⟩,
   ⟨((C6_retry_bound thirdTimeAttempt).2 2 (by omega) (by decide) (by decide)).1,
    ((C6_retry_bound thirdTimeAttempt).2 2 (by omega) (by decide) (by decide)).2.2⟩⟩

/-! ## Claim C8 : glob expansion (corrected) -/

/-- Counterexample to C8 as stated: the pattern `sub` (rooted to
`/data/sub`) matches a directory that contains the regular file
`/data/sub/f.txt`; the claim says directories are expanded recursively
into their regular-file contents, so expansion should succeed with that
file — but `ValidateSourcePath` drops the directory match entirely and
returns a zero-valid-files error. -/
theorem C8_counterexample :
    isErr (Validator.ValidateSourcePath plainOps c8Env "/data" "sub") = true ∧
    c8Env.glob "/data/sub" = some ["/data/sub"] ∧
    c8Env.lstatKind "/data/sub" = some FileKind.dir ∧
    c8Env.lstatKind "/data/sub/f.txt" = some FileKind.regular := by
  refine ⟨?_, by decide, by decide, by decide⟩
  decide

/-- Claim C8 (amended): source-pattern expansion globs the pattern,
silently drops matches outside the confinement root and matches that are
not regular files — directories are dropped as entries, not expanded
recursively — and returns an error whenever no confined regular file
remains (in particular it never returns an empty list). -/
theorem C8_glob_expansion (ops : PathOps) (env : GlobEnv) (allowedDir path : String)
    (ms : List String)
    (hglob : env.glob (if ops.isAbs (ops.clean path) then ops.clean path
      else ops.join allowedDir (ops.clean path)) = some ms)
    (hdd : hasDotDot path.data = false) :
    (∀ vs, Validator.ValidateSourcePath ops env allowedDir path = .ok vs →
      vs ≠ [] ∧ ∀ p ∈ vs, p ∈ ms ∧ strHasPre allowedDir p = true ∧
        env.lstatKind p = some FileKind.regular) ∧
    ((∀ m ∈ ms, strHasPre allowedDir m = false ∨ env.lstatKind m ≠ some FileKind.regular) →
      isErr (Validator.ValidateSourcePath ops env allowedDir path) = true) := by
  have hred : Validator.ValidateSourcePath ops env allowedDir path =
      (if ms.length = 0 then Except.error ("no files match pattern: " ++ path)
       else if (ms.filter (fun m => strHasPre allowedDir m &&
           (env.lstatKind m == some FileKind.regular))).length = 0 then
         Except.error ("no valid files found matching pattern: " ++ path)
       else Except.ok (ms.filter (fun m => strHasPre allowedDir m &&
           (env.lstatKind m == some FileKind.regular)))) := by
    simp only [Validator.ValidateSourcePath, hglob, hdd, Bool.false_eq_true, if_false]
  rw [hred]
  constructor
  · intro vs hvs
    by_cases hml : ms.length = 0
    · rw [if_pos hml] at hvs
      exact absurd hvs (by simp)
    · rw [if_neg hml] at hvs
      by_cases hvl : (ms.filter (fun m =>
          strHasPre allowedDir m && (env.lstatKind m == some FileKind.regular))).length = 0
      · rw [if_pos hvl] at hvs
        exact absurd hvs (by simp)
      · rw [if_neg hvl] at hvs
        simp only [Except.ok.injEq] at hvs
        subst hvs
        constructor
        · intro hnil
          rw [hnil] at hvl
          simp at hvl
        · intro p hp
          have hmf := List.mem_filter.mp hp
          have hpr := hmf.2
          simp only [Bool.and_eq_true, beq_iff_eq] at hpr
          exact ⟨hmf.1, hpr.1, hpr.2⟩
  · intro hnone
    by_cases hml : ms.length = 0
    · rw [if_pos hml]
      simp [isErr]
    · rw [if_neg hml]
      have hfe : ms.filter (fun m =>
          strHasPre allowedDir m && (env.lstatKind m == some FileKind.regular)) = [] := by
        rw [List.filter_eq_nil_iff]
        intro m hm
        rcases hnone m hm with h | h
        · simp [h]
        · simp only [Bool.and_eq_true, beq_iff_eq, not_and]
          intro _
          exact h
      rw [hfe]
      simp [isErr]

/-- Witness for C8: a pattern whose only match lies outside the allowed
directory is rejected with an error. -/
theorem C8_glob_expansion_witness :
    isErr (Validator.ValidateSourcePath plainOps c8wEnv "/data" "out") = true :=
  (C8_glob_expansion plainOps c8wEnv "/data" "out" ["/other/x.txt"]
    (by decide) (by decide)).2 (by decide)

/-! ## Receiver step lemmas -/

theorem getLast?_cons_of_ne {α : Type} (a : α) {l : List α} (h : l ≠ []) :
    (a :: l).getLast? = l.getLast? := by
  cases l with
  | nil => exact absurd rfl h
  | cons b t => exact List.getLast?_cons_cons

/-- Appending at the end of the file via `WriteAt`. -/
theorem writeAt_append (done payload : List Nat) :
    writeAt done done.length payload = done ++ payload := by
  unfold writeAt
  rw [List.take_length, Nat.sub_self, List.drop_eq_nil_of_le (by omega)]
  simp

theorem updateProgress_get (tr : Tracker) (fid : String) (fp0 : FileProgress) (b : Nat)
    (htr : tr fid = some fp0) :
    updateProgress tr fid b fid = some { fp0 with BytesTransferred := b } := by
  simp [updateProgress, htr]

theorem pct_nonneg (fp : FileProgress) : 0 ≤ GetProgressPercent fp := by
  unfold GetProgressPercent
  split
  · exact le_refl 0
  · positivity

theorem pct_le_100 (fp : FileProgress) (h : fp.BytesTransferred ≤ fp.TotalSize) :
    GetProgressPercent fp ≤ 100 := by
  unfold GetProgressPercent
  split
  · norm_num
  · rename_i hN
    have hNpos : (0 : ℚ) < fp.TotalSize := by
      have : 0 < fp.TotalSize := Nat.pos_of_ne_zero hN
      exact_mod_cast this
    rw [div_mul_eq_mul_div, div_le_iff₀ hNpos]
    have hcast : (fp.BytesTransferred : ℚ) ≤ (fp.TotalSize : ℚ) := by exact_mod_cast h
    nlinarith

theorem pct_full (fp : FileProgress) (h : fp.BytesTransferred = fp.TotalSize)
    (h0 : fp.TotalSize ≠ 0) : GetProgressPercent fp = 100 := by
  unfold GetProgressPercent
  rw [if_neg h0, h]
  have : (fp.TotalSize : ℚ) ≠ 0 := by exact_mod_cast h0
  field_simp

theorem openForChunk_cont (validate : String → Except String String) (st : RecvState)
    (c : FileChunk) (f : OpenFileInfo) (hcur : st.cur = some f)
    (hne : f.fileID ≠ "") (hid : f.fileID = c.FileId) :
    openForChunk validate st c = ([], st, .ok f) := by
  simp only [openForChunk, hcur]
  rw [if_pos ⟨hne, hid⟩]

theorem openForChunk_none (validate : String → Except String String) (st : RecvState)
    (c : FileChunk) (vp : String) (hcur : st.cur = none)
    (hval : validate c.FilePath = .ok vp) :
    openForChunk validate st c =
      ([], { cur := some { fileID := c.FileId, filePath := vp, totalSize := c.TotalSize,
                           received := 0 },
             fs := setFs st.fs vp (some []),
             tracker := startTransfer st.tracker c.FileId vp c.TotalSize },
       .ok { fileID := c.FileId, filePath := vp, totalSize := c.TotalSize, received := 0 }) := by
  simp only [openForChunk, hcur, initFile, hval]

/-- `handleChunk` only looks at the state through `openForChunk`. -/
theorem handleChunk_congr (validate : String → Except String String) (hash : List Nat → Nat)
    (st st' : RecvState) (c : FileChunk)
    (h : openForChunk validate st c = openForChunk validate st' c) :
    handleChunk validate hash st c = handleChunk validate hash st' c := by
  unfold handleChunk
  rw [h]

/-- Processing the first chunk of a stream from the idle state equals
processing it from the just-initialized state. -/
theorem recvRun_init (validate : String → Except String String) (hash : List Nat → Nat)
    (st : RecvState) (c : FileChunk) (rest : List FileChunk) (vp : String)
    (hcur : st.cur = none) (hval : validate c.FilePath = .ok vp) (hne : c.FileId ≠ "") :
    recvRun validate hash st (c :: rest) =
      recvRun validate hash
        { cur := some { fileID := c.FileId, filePath := vp, totalSize := c.TotalSize,
                        received := 0 },
          fs := setFs st.fs vp (some []),
          tracker := startTransfer st.tracker c.FileId vp c.TotalSize } (c :: rest) := by
  have h1 := openForChunk_none validate st c vp hcur hval
  have h2 := openForChunk_cont validate
    { cur := some { fileID := c.FileId, filePath := vp, totalSize := c.TotalSize, received := 0 },
      fs := setFs st.fs vp (some []),
      tracker := startTransfer st.tracker c.FileId vp c.TotalSize } c
    { fileID := c.FileId, filePath := vp, totalSize := c.TotalSize, received := 0 }
    rfl hne rfl
  have hhc := handleChunk_congr validate hash st _ c (h1.trans h2.symm)
  simp only [recvRun]
  rw [hhc]

/-- Processing a digest-correct non-last continuation chunk written at the
end of the file: emit one in-progress status and keep receiving. -/
theorem handleChunk_good_mid (validate : String → Except String String) (hash : List Nat → Nat)
    (fid vp rpath : String) (hfid : fid ≠ "") (N : Nat) (payload done : List Nat)
    (fs : String → Option (List Nat)) (tr : Tracker) (fp0 : FileProgress)
    (htr : tr fid = some fp0) (hfs : fs vp = some done) :
    handleChunk validate hash
      { cur := some { fileID := fid, filePath := vp, totalSize := N, received := done.length },
        fs := fs, tracker := tr }
      { FileId := fid, FilePath := rpath, TotalSize := N, Offset := done.length,
        Data := payload, Checksum := hash payload, IsLast := false } =
    ([{ FileId := fid, FilePath := vp, BytesTransferred := done.length + payload.length,
        TotalSize := N,
        ProgressPercent :=
          GetProgressPercent { fp0 with BytesTransferred := done.length + payload.length },
        Status := "in_progress" }],
     { cur := some { fileID := fid, filePath := vp, totalSize := N,
                     received := done.length + payload.length },
       fs := setFs fs vp (some (done ++ payload)),
       tracker := updateProgress tr fid (done.length + payload.length) }, none) := by
  have hopen := openForChunk_cont validate
    { cur := some { fileID := fid, filePath := vp, totalSize := N, received := done.length },
      fs := fs, tracker := tr }
    { FileId := fid, FilePath := rpath, TotalSize := N, Offset := done.length,
      Data := payload, Checksum := hash payload, IsLast := false }
    { fileID := fid, filePath := vp, totalSize := N, received := done.length }
    rfl hfid rfl
  simp only [handleChunk, hopen, ne_eq, not_true_eq_false, reduceIte, hfs,
    Option.getD_some, writeAt_append,
    updateProgress_get tr fid fp0 (done.length + payload.length) htr, getProgress]
  simp

/-- Processing a digest-correct last chunk that completes the declared
size: emit the in-progress status and the terminal completed status, close
the file, and return to the idle state. -/
theorem handleChunk_good_last (validate : String → Except String String) (hash : List Nat → Nat)
    (fid vp rpath : String) (hfid : fid ≠ "") (N : Nat) (payload done : List Nat)
    (fs : String → Option (List Nat)) (tr : Tracker) (fp0 : FileProgress)
    (htr : tr fid = some fp0) (hfs : fs vp = some done)
    (hcomplete : done.length + payload.length = N) :
    handleChunk validate hash
      { cur := some { fileID := fid, filePath := vp, totalSize := N, received := done.length },
        fs := fs, tracker := tr }
      { FileId := fid, FilePath := rpath, TotalSize := N, Offset := done.length,
        Data := payload, Checksum := hash payload, IsLast := true } =
    ([{ FileId := fid, FilePath := vp, BytesTransferred := N, TotalSize := N,
        ProgressPercent := GetProgressPercent { fp0 with BytesTransferred := N },
        Status := "in_progress" },
      { FileId := fid, FilePath := vp, BytesTransferred := N, TotalSize := N,
        ProgressPercent := 100, Status := "completed" }],
     { cur := none,
       fs := setFs fs vp (some (done ++ payload)),
       tracker := completeTransfer (updateProgress tr fid N) fid }, none) := by
  have hopen := openForChunk_cont validate
    { cur := some { fileID := fid, filePath := vp, totalSize := N, received := done.length },
      fs := fs, tracker := tr }
    { FileId := fid, FilePath := rpath, TotalSize := N, Offset := done.length,
      Data := payload, Checksum := hash payload, IsLast := true }
    { fileID := fid, filePath := vp, totalSize := N, received := done.length }
    rfl hfid rfl
  simp only [handleChunk, hopen, ne_eq, not_true_eq_false, reduceIte, hfs,
    Option.getD_some, writeAt_append, hcomplete,
    updateProgress_get tr fid fp0 N htr, getProgress, finalizeFile]
  simp

theorem setFs_same (fs : String → Option (List Nat)) (p : String) (v : Option (List Nat)) :
    setFs fs p v p = v := by
  simp [setFs]

theorem sendChunksLoop_last (hash : List Nat → Nat) (fid rpath : String) (N off : Nat)
    (rest : List Nat) (hne : rest ≠ []) (hlen : rest.length ≤ ChunkSize)
    (hN : N ≤ off + min ChunkSize rest.length) :
    sendChunksLoop hash fid rpath N off rest =
      [{ FileId := fid, FilePath := rpath, TotalSize := N, Offset := off, Data := rest,
         Checksum := hash rest, IsLast := true }] := by
  cases rest with
  | nil => exact absurd rfl hne
  | cons b rest' =>
    simp only [sendChunksLoop]
    rw [decide_eq_true hN, if_pos rfl, List.take_of_length_le hlen]

theorem sendChunksLoop_mid (hash : List Nat → Nat) (fid rpath : String) (N off : Nat)
    (rest : List Nat) (hne : rest ≠ [])
    (hN : ¬ (N ≤ off + min ChunkSize rest.length)) :
    sendChunksLoop hash fid rpath N off rest =
      { FileId := fid, FilePath := rpath, TotalSize := N, Offset := off,
        Data := rest.take ChunkSize, Checksum := hash (rest.take ChunkSize),
        IsLast := false } ::
      sendChunksLoop hash fid rpath N (off + min ChunkSize rest.length)
        (rest.drop ChunkSize) := by
  cases rest with
  | nil => exact absurd rfl hne
  | cons b rest' =>
    simp only [sendChunksLoop]
    rw [decide_eq_false hN, if_neg (by simp)]

theorem recvRun_cons_none (validate : String → Except String String) (hash : List Nat → Nat)
    (st : RecvState) (c : FileChunk) (rest : List FileChunk)
    (evs₁ : List TransferStatus) (st₁ : RecvState)
    (h : handleChunk validate hash st c = (evs₁, st₁, none)) :
    recvRun validate hash st (c :: rest) =
      prependEvs evs₁ (recvRun validate hash st₁ rest) := by
  simp only [recvRun, h]

theorem recvRun_cons_some (validate : String → Except String String) (hash : List Nat → Nat)
    (st : RecvState) (c : FileChunk) (rest : List FileChunk)
    (evs₁ : List TransferStatus) (st₁ : RecvState) (e : String)
    (h : handleChunk validate hash st c = (evs₁, st₁, some e)) :
    recvRun validate hash st (c :: rest) = (evs₁, st₁, .error e) := by
  simp only [recvRun, h]

/-- Main invariant lemma for the sender-to-receiver composition: from a
state in which the destination file is open with `done` bytes written,
feeding the remainder of the sender's chunk stream succeeds, leaves the
full source contents at the destination, ends with the terminal completed
status carrying the full byte count, and every emitted status is bounded
and monotone. -/
theorem recv_sender_loop (validate : String → Except String String) (hash : List Nat → Nat)
    (fid vp rpath : String) (hfid : fid ≠ "") (data : List Nat) :
    ∀ (fuel : Nat) (done rest : List Nat) (off : Nat), rest.length ≤ fuel → rest ≠ [] →
      data = done ++ rest → off = done.length →
    ∀ (fs : String → Option (List Nat)) (tr : Tracker) (fp0 : FileProgress),
      tr fid = some fp0 → fp0.TotalSize = data.length → fs vp = some done →
    ∀ (evs : List TransferStatus) (st' : RecvState) (res : Except String Unit),
      recvRun validate hash
        { cur := some { fileID := fid, filePath := vp, totalSize := data.length,
                        received := off }, fs := fs, tracker := tr }
        (sendChunksLoop hash fid rpath data.length off rest) = (evs, st', res) →
      res = .ok () ∧ st'.fs vp = some data ∧
      evs.getLast? = some { FileId := fid, FilePath := vp, BytesTransferred := data.length,
                            TotalSize := data.length, ProgressPercent := 100,
                            Status := "completed" } ∧
      (∀ s ∈ evs, done.length ≤ s.BytesTransferred ∧ s.BytesTransferred ≤ data.length ∧
        0 ≤ s.ProgressPercent ∧ s.ProgressPercent ≤ 100 ∧
        (s.Status = "in_progress" ∨ s.Status = "completed")) ∧
      List.Chain' (fun a b => a.BytesTransferred ≤ b.BytesTransferred) evs := by
  intro fuel
  induction fuel with
  | zero =>
    intro done rest off hle hne _ _
    cases rest with
    | nil => exact absurd rfl hne
    | cons b t => simp at hle
  | succ fuel ih =>
    intro done rest off hle hne hdata hoff fs tr fp0 htr hts hfs evs st' res hrun
    subst hoff
    by_cases hlast : rest.length ≤ ChunkSize
    · -- the generated chunk is the last one
      have hmin : min ChunkSize rest.length = rest.length := Nat.min_eq_right hlast
      have hN : data.length ≤ done.length + min ChunkSize rest.length := by
        rw [hmin, hdata, List.length_append]
      have hcomplete : done.length + rest.length = data.length := by
        rw [hdata, List.length_append]
      rw [sendChunksLoop_last hash fid rpath data.length done.length rest hne hlast hN] at hrun
      rw [recvRun_cons_none validate hash _ _ _ _ _
        (handleChunk_good_last validate hash fid vp rpath hfid data.length rest done fs tr fp0
          htr hfs hcomplete)] at hrun
      simp only [recvRun, prependEvs] at hrun
      obtain ⟨hevs, hst, hres⟩ : evs = _ ∧ st' = _ ∧ res = _ := by
        rw [Prod.mk.injEq, Prod.mk.injEq] at hrun
        exact ⟨hrun.1.symm, hrun.2.1.symm, hrun.2.2.symm⟩
      subst hevs hst hres
      refine ⟨rfl, ?_, ?_, ?_, ?_⟩
      · simp [setFs, hdata]
      · simp
      · intro s hs
        have hble : fp0.BytesTransferred ≤ fp0.TotalSize ∨ True := Or.inr trivial
        rcases List.mem_cons.mp hs with hs1 | hs2
        · subst hs1
          refine ⟨by simpa using Nat.le.intro hcomplete, by simp, ?_, ?_, by simp⟩
          · simpa using pct_nonneg { fp0 with BytesTransferred := data.length }
          · simpa using pct_le_100 { fp0 with BytesTransferred := data.length } (by simp [hts])
        · rcases List.mem_singleton.mp (by simpa using hs2) with rfl
          refine ⟨by simpa using Nat.le.intro hcomplete, by simp, by norm_num, by norm_num,
            by simp⟩
      · exact List.chain'_pair.mpr (by simp)
    · -- a full middle chunk, recurse
      have hpos : 0 < ChunkSize := by decide
      have hcs : ChunkSize ≤ rest.length := Nat.le_of_lt (Nat.lt_of_not_le hlast)
      have hmin : min ChunkSize rest.length = ChunkSize := Nat.min_eq_left hcs
      have htlen : (rest.take ChunkSize).length = ChunkSize := by
        rw [List.length_take, hmin]
      have hN : ¬ (data.length ≤ done.length + min ChunkSize rest.length) := by
        rw [hmin, hdata, List.length_append]
        omega
      rw [sendChunksLoop_mid hash fid rpath data.length done.length rest hne hN] at hrun
      rw [recvRun_cons_none validate hash _ _ _ _ _
        (handleChunk_good_mid validate hash fid vp rpath hfid data.length
          (rest.take ChunkSize) done fs tr fp0 htr hfs)] at hrun
      have e1 : done.length + (rest.take ChunkSize).length =
          (done ++ rest.take ChunkSize).length := (List.length_append _ _).symm
      have e2 : done.length + min ChunkSize rest.length =
          (done ++ rest.take ChunkSize).length := by
        rw [hmin, List.length_append, htlen]
      rw [e1, e2] at hrun
      set q := recvRun validate hash
        { cur := some { fileID := fid, filePath := vp, totalSize := data.length,
                        received := (done ++ rest.take ChunkSize).length },
          fs := setFs fs vp (some (done ++ rest.take ChunkSize)),
          tracker := updateProgress tr fid ((done ++ rest.take ChunkSize).length) }
        (sendChunksLoop hash fid rpath data.length ((done ++ rest.take ChunkSize).length)
          (rest.drop ChunkSize)) with hqdef
      simp only [prependEvs] at hrun
      obtain ⟨hevs, hst, hres⟩ : evs = _ ∧ st' = _ ∧ res = _ := by
        rw [Prod.mk.injEq, Prod.mk.injEq] at hrun
        exact ⟨hrun.1.symm, hrun.2.1.symm, hrun.2.2.symm⟩
      subst hevs hst hres
      have hdrop : rest.drop ChunkSize ≠ [] := by
        have hdl : 0 < (rest.drop ChunkSize).length := by
          rw [List.length_drop]
          omega
        exact List.length_pos.mp hdl
      obtain ⟨ihres, ihfs, ihlast, ihmem, ihchain⟩ :=
        ih (done ++ rest.take ChunkSize) (rest.drop ChunkSize)
          ((done ++ rest.take ChunkSize).length)
          (by rw [List.length_drop]; omega) hdrop
          (by rw [List.append_assoc, List.take_append_drop]; exact hdata) rfl
          (setFs fs vp (some (done ++ rest.take ChunkSize)))
          (updateProgress tr fid ((done ++ rest.take ChunkSize).length))
          { fp0 with BytesTransferred := (done ++ rest.take ChunkSize).length }
          (updateProgress_get tr fid fp0 _ htr) (by simpa using hts)
          (setFs_same fs vp _) q.1 q.2.1 q.2.2 (by rw [← hqdef])
      have hbound : (done ++ rest.take ChunkSize).length ≤ data.length := by
        rw [hdata, List.length_append, List.length_append, htlen]
        omega
      have hevne : q.1 ≠ [] := by
        intro hcon
        rw [hcon] at ihlast
        simp at ihlast
      refine ⟨ihres, ihfs, ?_, ?_, ?_⟩
      · rw [List.singleton_append, getLast?_cons_of_ne _ hevne]
        exact ihlast
      · intro s hs
        rw [List.singleton_append] at hs
        rcases List.mem_cons.mp hs with hs1 | hs2
        · subst hs1
          refine ⟨by simp, by simpa using hbound, ?_, ?_, by simp⟩
          · simpa using pct_nonneg
              { fp0 with BytesTransferred := (done ++ rest.take ChunkSize).length }
          · simpa using pct_le_100
              { fp0 with BytesTransferred := (done ++ rest.take ChunkSize).length }
              (by simpa [hts] using hbound)
        · obtain ⟨hlo, hhi, hp0, hp1, hstat⟩ := ihmem s hs2
          refine ⟨?_, hhi, hp0, hp1, hstat⟩
          calc done.length ≤ (done ++ rest.take ChunkSize).length := by
                rw [List.length_append]; omega
            _ ≤ s.BytesTransferred := hlo
      · rw [List.singleton_append, List.chain'_cons']
        refine ⟨?_, ihchain⟩
        intro b hb
        have hbmem : b ∈ q.1 := List.mem_of_mem_head? hb
        have hlow := (ihmem b hbmem).1
        simpa using hlow

theorem startTransfer_get (tr : Tracker) (fid p : String) (N : Nat) :
    startTransfer tr fid p N fid =
      some { FileID := fid, FilePath := p, TotalSize := N, BytesTransferred := 0,
             Status := "in_progress" } := by
  simp [startTransfer]

/-- On a sender-generated stream the idle receiver initializes exactly as
the freshly-opened state does. -/
theorem recvRun_init_sender (validate : String → Except String String) (hash : List Nat → Nat)
    (fs0 : String → Option (List Nat)) (tr0 : Tracker) (fid rpath vp : String)
    (N off : Nat) (rest : List Nat) (hne : rest ≠ [])
    (hval : validate rpath = .ok vp) (hfid : fid ≠ "") :
    recvRun validate hash { cur := none, fs := fs0, tracker := tr0 }
      (sendChunksLoop hash fid rpath N off rest) =
    recvRun validate hash
      { cur := some { fileID := fid, filePath := vp, totalSize := N, received := 0 },
        fs := setFs fs0 vp (some []),
        tracker := startTransfer tr0 fid vp N }
      (sendChunksLoop hash fid rpath N off rest) := by
  obtain ⟨more, hsp⟩ : ∃ more, sendChunksLoop hash fid rpath N off rest =
      { FileId := fid, FilePath := rpath, TotalSize := N, Offset := off,
        Data := rest.take ChunkSize, Checksum := hash (rest.take ChunkSize),
        IsLast := decide (N ≤ off + min ChunkSize rest.length) } :: more := by
    cases rest with
    | nil => exact absurd rfl hne
    | cons b rest' =>
      simp only [sendChunksLoop]
      split
      · exact ⟨[], rfl⟩
      · exact ⟨_, rfl⟩
  rw [hsp]
  have hinit := recvRun_init validate hash { cur := none, fs := fs0, tracker := tr0 }
    { FileId := fid, FilePath := rpath, TotalSize := N, Offset := off,
      Data := rest.take ChunkSize, Checksum := hash (rest.take ChunkSize),
      IsLast := decide (N ≤ off + min ChunkSize rest.length) }
    more vp rfl hval hfid
  simpa using hinit

/-- Assembly lemma: the full `ReceiveFile` run on the chunk stream of
`SendFile` for a nonempty source file succeeds, reproduces the source
bytes at the validated destination, ends with the terminal completed
status carrying the source size, and reports monotone bounded progress. -/
theorem ReceiveFile_sender_run (validate : String → Except String String)
    (hash : List Nat → Nat) (fs0 : String → Option (List Nat)) (tr0 : Tracker)
    (fid rpath vp : String) (data : List Nat)
    (hfid : fid ≠ "") (hval : validate rpath = .ok vp) (hne : data ≠ []) :
    ∀ (evs : List TransferStatus) (st' : RecvState) (res : Except String Unit),
      ReceiveFile validate hash fs0 tr0 (SendFileChunks hash fid rpath data) =
        (evs, st', res) →
      res = .ok () ∧ st'.fs vp = some data ∧
      evs.getLast? = some { FileId := fid, FilePath := vp, BytesTransferred := data.length,
                            TotalSize := data.length, ProgressPercent := 100,
                            Status := "completed" } ∧
      (∀ s ∈ evs, s.BytesTransferred ≤ data.length ∧
        0 ≤ s.ProgressPercent ∧ s.ProgressPercent ≤ 100 ∧
        (s.Status = "in_progress" ∨ s.Status = "completed")) ∧
      List.Chain' (fun a b => a.BytesTransferred ≤ b.BytesTransferred) evs := by
  intro evs st' res hrun
  unfold ReceiveFile SendFileChunks at hrun
  rw [recvRun_init_sender validate hash fs0 tr0 fid rpath vp data.length 0 data hne hval hfid]
    at hrun
  obtain ⟨hres, hfs, hlast, hmem, hchain⟩ :=
    recv_sender_loop validate hash fid vp rpath hfid data data.length [] data 0
      (le_refl _) hne rfl rfl (setFs fs0 vp (some [])) (startTransfer tr0 fid vp data.length)
      { FileID := fid, FilePath := vp, TotalSize := data.length, BytesTransferred := 0,
        Status := "in_progress" }
      (startTransfer_get tr0 fid vp data.length) rfl (setFs_same fs0 vp (some []))
      evs st' res hrun
  exact ⟨hres, hfs, hlast, fun s hs => ⟨(hmem s hs).2.1, (hmem s hs).2.2.1,
    (hmem s hs).2.2.2.1, (hmem s hs).2.2.2.2⟩, hchain⟩

/-! ## Claim C1 : round-trip (code bug at size 0) -/

/-- Claim C1, settled against the code. For every nonempty source file,
sending it with `Sender.SendFile` through a stream consumed by
`Receiver.ReceiveFile` succeeds, reproduces the source bytes exactly at
the validated destination, and the terminal status reports `completed`
with a final byte count equal to the source size. For the empty source
file, however, `SendFile`'s read loop breaks before sending any chunk, so
the receiver — fed an empty stream — creates no destination file and
emits no terminal status at all: the claim fails at size 0. -/
theorem C1_roundtrip_nonempty_and_empty_divergence
    (validate : String → Except String String) (hash : List Nat → Nat)
    (fs0 : String → Option (List Nat)) (tr0 : Tracker)
    (fid rpath vp : String) (data : List Nat)
    (hfid : fid ≠ "") (hval : validate rpath = .ok vp) :
    (data ≠ [] →
      ∀ (evs : List TransferStatus) (st' : RecvState) (res : Except String Unit),
        ReceiveFile validate hash fs0 tr0 (SendFileChunks hash fid rpath data) =
          (evs, st', res) →
        res = .ok () ∧ st'.fs vp = some data ∧
        evs.getLast? = some { FileId := fid, FilePath := vp,
                              BytesTransferred := data.length, TotalSize := data.length,
                              ProgressPercent := 100, Status := "completed" }) ∧
    (SendFileChunks hash fid rpath [] = [] ∧
     ReceiveFile validate hash fs0 tr0 (SendFileChunks hash fid rpath []) =
       ([], { cur := none, fs := fs0, tracker := tr0 }, .ok ())) := by
  constructor
  · intro hne evs st' res hrun
    obtain ⟨h1, h2, h3, _, _⟩ :=
      ReceiveFile_sender_run validate hash fs0 tr0 fid rpath vp data hfid hval hne
        evs st' res hrun
    exact ⟨h1, h2, h3⟩
  · constructor
    · simp [SendFileChunks, sendChunksLoop]
    · simp [SendFileChunks, sendChunksLoop, ReceiveFile, recvRun]

/-- Witness for C1 on the 3-byte file `[7, 8, 9]` and on the empty file. -/
theorem C1_roundtrip_witness :
    ((ReceiveFile wValidate wHash emptyFs NewTracker
        (SendFileChunks wHash "id1" "f.txt" [7, 8, 9])).2.2 = .ok () ∧
     (ReceiveFile wValidate wHash emptyFs NewTracker
        (SendFileChunks wHash "id1" "f.txt" [7, 8, 9])).2.1.fs "/data/f.txt" =
       some [7, 8, 9]) ∧
    SendFileChunks wHash "id1" "f.txt" [] = [] := by
  have h := (C1_roundtrip_nonempty_and_empty_divergence wValidate wHash emptyFs NewTracker
    "id1" "f.txt" "/data/f.txt" [7, 8, 9] (by decide) rfl)
  have h1 := h.1 (by decide) _ _ _ rfl
  exact ⟨⟨h1.1, h1.2.1⟩, h.2.1⟩

/-! ## Claim C5 : monotonic bounded progress -/

/-- Claim C5: over the course of a transfer (the receiver consuming the
sender's chunk stream for a nonempty file), the successive bytes-transferred
values observable through the progress reports are monotonically
non-decreasing, bounded by the declared total size, and the derived
percent-complete always lies within [0, 100]. -/
theorem C5_monotonic_progress (validate : String → Except String String)
    (hash : List Nat → Nat) (fs0 : String → Option (List Nat)) (tr0 : Tracker)
    (fid rpath vp : String) (data : List Nat)
    (hfid : fid ≠ "") (hval : validate rpath = .ok vp) (hne : data ≠ []) :
    ∀ (evs : List TransferStatus) (st' : RecvState) (res : Except String Unit),
      ReceiveFile validate hash fs0 tr0 (SendFileChunks hash fid rpath data) =
        (evs, st', res) →
      List.Chain' (fun a b => a.BytesTransferred ≤ b.BytesTransferred) evs ∧
      ∀ s ∈ evs, s.BytesTransferred ≤ data.length ∧
        0 ≤ s.ProgressPercent ∧ s.ProgressPercent ≤ 100 := by
  intro evs st' res hrun
  obtain ⟨_, _, _, hmem, hchain⟩ :=
    ReceiveFile_sender_run validate hash fs0 tr0 fid rpath vp data hfid hval hne
      evs st' res hrun
  exact ⟨hchain, fun s hs => ⟨(hmem s hs).1, (hmem s hs).2.1, (hmem s hs).2.2.1⟩⟩

/-- Witness for C5 on a concrete 2-byte transfer. -/
theorem C5_monotonic_progress_witness :
    List.Chain' (fun a b => a.BytesTransferred ≤ b.BytesTransferred)
      (ReceiveFile wValidate wHash emptyFs NewTracker
        (SendFileChunks wHash "id9" "g.txt" [4, 6])).1 :=
  ((C5_monotonic_progress wValidate wHash emptyFs NewTracker "id9" "g.txt" "/data/g.txt"
    [4, 6] (by decide) rfl (by decide)) _ _ _ rfl).1

/-! ## Claim C3 : integrity abort -/

/-- Processing a chunk whose recomputed digest mismatches the declared one
aborts immediately: one error status, the transfer marked failed, and the
loop stops. -/
theorem handleChunk_badsum (validate : String → Except String String) (hash : List Nat → Nat)
    (st : RecvState) (c : FileChunk) (f : OpenFileInfo)
    (hcur : st.cur = some f) (hne : f.fileID ≠ "") (hid : f.fileID = c.FileId)
    (hbad : hash c.Data ≠ c.Checksum) :
    handleChunk validate hash st c =
      ([errorStatus f.fileID ("checksum mismatch at offset " ++ toString c.Offset)],
       { st with tracker := failTransfer st.tracker f.fileID ("checksum mismatch at offset " ++ toString c.Offset) },
       some ("checksum mismatch at offset " ++ toString c.Offset)) := by
  have hopen := openForChunk_cont validate st c f hcur hne hid
  simp only [handleChunk, hopen]
  rw [if_pos hbad]
  simp

/-- Processing a digest-correct non-last chunk from an arbitrary open
state: one in-progress status and the loop continues. -/
theorem handleChunk_goodchunk (validate : String → Except String String)
    (hash : List Nat → Nat) (st : RecvState) (c : FileChunk) (f : OpenFileInfo)
    (hcur : st.cur = some f) (hne : f.fileID ≠ "") (hid : f.fileID = c.FileId)
    (hsum : hash c.Data = c.Checksum) (hlast : c.IsLast = false) :
    handleChunk validate hash st c =
      ([{ FileId := f.fileID, FilePath := f.filePath,
          BytesTransferred := f.received + c.Data.length, TotalSize := f.totalSize,
          ProgressPercent :=
            (match updateProgress st.tracker f.fileID (f.received + c.Data.length) f.fileID with
             | some fp => GetProgressPercent fp
             | none => 0),
          Status := "in_progress" }],
       { cur := some { f with received := f.received + c.Data.length },
         fs := setFs st.fs f.filePath
           (some (writeAt ((st.fs f.filePath).getD []) c.Offset c.Data)),
         tracker := updateProgress st.tracker f.fileID (f.received + c.Data.length) },
       none) := by
  have hopen := openForChunk_cont validate st c f hcur hne hid
  simp only [handleChunk, hopen]
  rw [if_neg (by simp [hsum]), hlast]
  simp [getProgress]

/-- Abort propagation through a prefix of digest-correct non-last chunks:
the run on `pre ++ bad :: rest` equals the run on `pre ++ [bad]` (nothing
after the bad chunk is processed), ends in an error, and never emits a
completed status. -/
theorem recv_abort_loop (validate : String → Except String String) (hash : List Nat → Nat)
    (fid : String) (hfid : fid ≠ "") (bad : FileChunk)
    (hbadid : bad.FileId = fid) (hbad : hash bad.Data ≠ bad.Checksum) :
    ∀ (pre : List FileChunk) (st : RecvState) (f : OpenFileInfo),
      st.cur = some f → f.fileID = fid →
      (∀ c ∈ pre, c.FileId = fid ∧ hash c.Data = c.Checksum ∧ c.IsLast = false) →
    ∀ rest : List FileChunk,
      recvRun validate hash st (pre ++ bad :: rest) =
        recvRun validate hash st (pre ++ [bad]) ∧
      isErr (recvRun validate hash st (pre ++ bad :: rest)).2.2 = true ∧
      ∀ s ∈ (recvRun validate hash st (pre ++ bad :: rest)).1, s.Status ≠ "completed" := by
  intro pre
  induction pre with
  | nil =>
    intro st f hcur hfid' _ rest
    have hstep := handleChunk_badsum validate hash st bad f hcur
      (by rw [hfid']; exact hfid) (by rw [hfid', hbadid]) hbad
    have h1 := recvRun_cons_some validate hash st bad rest _ _ _ hstep
    have h2 := recvRun_cons_some validate hash st bad [] _ _ _ hstep
    simp only [List.nil_append]
    rw [h1, h2]
    refine ⟨rfl, by simp [isErr], ?_⟩
    intro s hs
    rcases List.mem_singleton.mp (by simpa using hs) with rfl
    simp [errorStatus]
  | cons c pre' ih =>
    intro st f hcur hfid' hpre rest
    have hc := hpre c (List.mem_cons_self c pre')
    have hstep := handleChunk_goodchunk validate hash st c f hcur
      (by rw [hfid']; exact hfid) (by rw [hfid', hc.1]) hc.2.1 hc.2.2
    have hpre' : ∀ x ∈ pre', x.FileId = fid ∧ hash x.Data = x.Checksum ∧ x.IsLast = false :=
      fun x hx => hpre x (List.mem_cons_of_mem c hx)
    have hih := ih { cur := some { f with received := f.received + c.Data.length },
                     fs := setFs st.fs f.filePath
                       (some (writeAt ((st.fs f.filePath).getD []) c.Offset c.Data)),
                     tracker := updateProgress st.tracker f.fileID
                       (f.received + c.Data.length) }
      { f with received := f.received + c.Data.length } rfl hfid' hpre'
    have h1 := recvRun_cons_none validate hash st c (pre' ++ bad :: rest) _ _ hstep
    have h2 := recvRun_cons_none validate hash st c (pre' ++ [bad]) _ _ hstep
    rw [List.cons_append, h1, List.cons_append, h2]
    obtain ⟨hieq, hierr, himem⟩ := hih rest
    refine ⟨by rw [hieq], ?_, ?_⟩
    · simpa [prependEvs] using hierr
    · intro s hs
      simp only [prependEvs, List.singleton_append] at hs
      rcases List.mem_cons.mp hs with hs1 | hs2
      · subst hs1
        simp
      · exact himem s hs2

/-- Claim C3: a received chunk whose recomputed SHA-256 digest differs from
its declared digest makes the receiver abort immediately with an integrity
error — the run is identical to the run that stops at the bad chunk, so no
chunk after it is processed — and no completion is ever reported for the
transfer identifier. -/
theorem C3_integrity_abort (validate : String → Except String String) (hash : List Nat → Nat)
    (fs0 : String → Option (List Nat)) (tr0 : Tracker) (fid vp : String)
    (pre : List FileChunk) (bad : FileChunk) (rest : List FileChunk)
    (hfid : fid ≠ "")
    (hpre : ∀ c ∈ pre, c.FileId = fid ∧ hash c.Data = c.Checksum ∧ c.IsLast = false)
    (hbadid : bad.FileId = fid) (hbad : hash bad.Data ≠ bad.Checksum)
    (hval : validate ((pre ++ [bad]).headD bad).FilePath = .ok vp) :
    ReceiveFile validate hash fs0 tr0 (pre ++ bad :: rest) =
      ReceiveFile validate hash fs0 tr0 (pre ++ [bad]) ∧
    isErr (ReceiveFile validate hash fs0 tr0 (pre ++ bad :: rest)).2.2 = true ∧
    ∀ s ∈ (ReceiveFile validate hash fs0 tr0 (pre ++ bad :: rest)).1,
      s.Status ≠ "completed" := by
  unfold ReceiveFile
  cases pre with
  | nil =>
    simp only [List.headD, List.nil_append] at hval ⊢
    have hne : bad.FileId ≠ "" := by rw [hbadid]; exact hfid
    rw [recvRun_init validate hash _ bad rest vp rfl hval hne,
        recvRun_init validate hash _ bad [] vp rfl hval hne]
    exact recv_abort_loop validate hash fid hfid bad hbadid hbad []
      _ _ rfl hbadid (by intro c hc; cases hc) rest
  | cons c pre' =>
    simp only [List.cons_append, List.headD] at hval ⊢
    have hcfid := (hpre c (List.mem_cons_self c pre')).1
    have hne : c.FileId ≠ "" := by rw [hcfid]; exact hfid
    rw [recvRun_init validate hash _ c (pre' ++ bad :: rest) vp rfl hval hne,
        recvRun_init validate hash _ c (pre' ++ [bad]) vp rfl hval hne]
    have hloop := recv_abort_loop validate hash fid hfid bad hbadid hbad (c :: pre')
      { cur := some { fileID := c.FileId, filePath := vp, totalSize := c.TotalSize,
                      received := 0 },
        fs := setFs fs0 vp (some []),
        tracker := startTransfer tr0 c.FileId vp c.TotalSize }
      { fileID := c.FileId, filePath := vp, totalSize := c.TotalSize, received := 0 }
      rfl hcfid hpre rest
    simpa using hloop

/-- Witness for C3 on a concrete three-chunk stream whose middle chunk is
corrupted: the run stops at the bad chunk and errors. -/
theorem C3_integrity_abort_witness :
    ReceiveFile wValidate wHash emptyFs NewTracker ([goodChunk] ++ badChunk :: [tailChunk]) =
      ReceiveFile wValidate wHash emptyFs NewTracker ([goodChunk] ++ [badChunk]) ∧
    isErr (ReceiveFile wValidate wHash emptyFs NewTracker
      ([goodChunk] ++ badChunk :: [tailChunk])).2.2 = true := by
  have h := C3_integrity_abort wValidate wHash emptyFs NewTracker "id1" "/data/f.txt"
    [goodChunk] badChunk [tailChunk] (by decide)
    (by intro c hc
        rcases List.mem_singleton.mp hc with rfl
        exact ⟨rfl, rfl, rfl⟩)
    rfl (by decide) rfl
  exact ⟨h.1, h.2.1⟩

/-! ## Claim C4 : size-mismatch finalize -/

theorem failTransfer_get (tr : Tracker) (fid msg : String) (e0 : FileProgress)
    (htr : tr fid = some e0) :
    failTransfer tr fid msg fid = some { e0 with Status := "error", ErrorMessage := msg } := by
  simp [failTransfer, htr]

theorem completeTransfer_get (tr : Tracker) (fid : String) (e0 : FileProgress)
    (htr : tr fid = some e0) :
    completeTransfer tr fid fid = some { e0 with Status := "completed" } := by
  simp [completeTransfer, htr]

/-- Claim C4: at finalize time, a received-byte count different from the
declared total size aborts the transfer with a data-loss error, marks the
tracked entry failed, and never reports completion; an equal count
transitions the transfer to completed, marks the progress-store entry
completed, and emits the terminal success acknowledgment carrying the
final byte count. The metadata-protocol server behaves the same at its
completion message: a byte-count mismatch is a data-loss error (and the
partial file is removed), a match yields the terminal success response
carrying the final byte count. -/
theorem C4_finalize_size_check (st : RecvState) (fid fp : String) (N recv : Nat)
    (e0 : FileProgress) (htr : st.tracker fid = some e0) :
    (recv ≠ N →
      isErr (finalizeFile st fid fp N recv).2.2 = true ∧
      (∃ msg, (finalizeFile st fid fp N recv).2.1.tracker fid =
        some { e0 with Status := "error", ErrorMessage := msg }) ∧
      ∀ s ∈ (finalizeFile st fid fp N recv).1, s.Status ≠ "completed") ∧
    (recv = N →
      (finalizeFile st fid fp N recv).2.2 = .ok () ∧
      (finalizeFile st fid fp N recv).2.1.tracker fid =
        some { e0 with Status := "completed" } ∧
      (finalizeFile st fid fp N recv).1 =
        [{ FileId := fid, FilePath := fp, BytesTransferred := recv, TotalSize := N,
           ProgressPercent := 100, Status := "completed" }]) ∧
    (∀ (fs : String → Option (List Nat)) (tp : String) (b declared : Nat)
        (rest : List TMsg), b ≠ declared →
      isErr (grpcLoop fs tp b (.complete declared :: rest)).2 = true ∧
      (grpcLoop fs tp b (.complete declared :: rest)).1 tp = none) ∧
    (∀ (fs : String → Option (List Nat)) (tp : String) (b : Nat) (rest : List TMsg),
      (grpcLoop fs tp b (.complete b :: rest)).2 =
        .ok { Success := true, Message := "transfer completed", BytesReceived := b }) := by
  refine ⟨?_, ?_, ?_, ?_⟩
  · intro hne
    unfold finalizeFile
    rw [if_pos hne]
    refine ⟨by simp [isErr], ⟨_, failTransfer_get st.tracker fid _ e0 htr⟩, ?_⟩
    intro s hs
    rcases List.mem_singleton.mp (by simpa using hs) with rfl
    simp [errorStatus]
  · intro heq
    unfold finalizeFile
    rw [if_neg (by simp [heq])]
    exact ⟨rfl, completeTransfer_get st.tracker fid e0 htr, by rw [heq]⟩
  · intro fs tp b declared rest hne
    simp only [grpcLoop]
    rw [if_pos hne]
    exact ⟨by simp [isErr], setFs_same fs tp none⟩
  · intro fs tp b rest
    simp only [grpcLoop]
    rw [if_neg (by simp)]

/-- Witness for C4: a 7-of-10-byte finalize fails, a 10-of-10-byte
finalize completes, and the metadata-protocol completion with a wrong
declared count is a data-loss error with the file removed. -/
theorem C4_finalize_size_check_witness :
    isErr (finalizeFile demoRecvState "t1" "/data/x.bin" 10 7).2.2 = true ∧
    (finalizeFile demoRecvState "t1" "/data/x.bin" 10 10).2.2 = .ok () ∧
    isErr (grpcLoop emptyFs "/root/f.txt" 5 [.complete 9]).2 = true := by
  have h1 := C4_finalize_size_check demoRecvState "t1" "/data/x.bin" 10 7
    { FileID := "t1", FilePath := "/data/x.bin", TotalSize := 10, BytesTransferred := 0,
      Status := "in_progress" } (by simp [demoRecvState, startTransfer_get])
  have h2 := C4_finalize_size_check demoRecvState "t1" "/data/x.bin" 10 10
    { FileID := "t1", FilePath := "/data/x.bin", TotalSize := 10, BytesTransferred := 0,
      Status := "in_progress" } (by simp [demoRecvState, startTransfer_get])
  exact ⟨(h1.1 (by decide)).1, (h2.2.1 rfl).1, (h1.2.2.1 emptyFs "/root/f.txt" 5 9 []
    (by decide)).1⟩

/-! ## Claim C7 : empty-file transfer (corrected) -/

/-- Counterexample to C7 as stated: after a zero-byte transfer is started
and completed, the progress store's derived percent-complete for it is 0,
not 100 — `GetProgressPercent` defines the percent of a zero-total
transfer as 0. -/
theorem C7_counterexample :
    (getProgress (completeTransfer (startTransfer NewTracker "t1" "/data/a.txt" 0) "t1")
        "t1").map GetProgressPercent = some 0 ∧
    some (0 : ℚ) ≠ some (100 : ℚ) := by
  constructor
  · simp [NewTracker, startTransfer, completeTransfer, getProgress, GetProgressPercent]
  · simp

/-- Claim C7 (amended): sending a zero-byte file sends exactly one chunk
carrying zero bytes with the digest of the empty payload and the
last-chunk flag set; the receiving server creates the (empty) destination
file and its terminal acknowledgment reports success with final byte
count 0; and the progress store reports the completed transfer at
0 percent — the zero-total convention — not 100. -/
theorem C7_empty_file (hash : List Nat → Nat) (validateEnsure : String → Except String String)
    (fs0 : String → Option (List Nat)) (dest vp : String)
    (hval : validateEnsure dest = .ok vp) :
    p8SendFile hash dest [] =
      [{ FilePath := dest, Data := [], Offset := 0, TotalSize := 0,
         Checksum := hash [], IsLast := true }] ∧
    (p8Run validateEnsure hash none 0 fs0 (p8SendFile hash dest [])).1 =
      [{ Success := true, Message := "Chunk received", BytesTransferred := 0 }] ∧
    (p8Run validateEnsure hash none 0 fs0 (p8SendFile hash dest [])).2.2 = .ok () ∧
    (p8Run validateEnsure hash none 0 fs0 (p8SendFile hash dest [])).2.1 vp = some [] ∧
    (∀ (tr : Tracker) (fid path : String),
      getProgress (completeTransfer (startTransfer tr fid path 0) fid) fid =
        some { FileID := fid, FilePath := path, TotalSize := 0, BytesTransferred := 0,
               Status := "completed" } ∧
      GetProgressPercent { FileID := fid, FilePath := path, TotalSize := 0,
                           BytesTransferred := 0, Status := "completed" } = 0) := by
  have hsend : p8SendFile hash dest [] =
      [{ FilePath := dest, Data := [], Offset := 0, TotalSize := 0,
         Checksum := hash [], IsLast := true }] := by
    simp [p8SendFile]
  have hopen : p8Open validateEnsure none fs0 0
      { FilePath := dest, Data := [], Offset := 0, TotalSize := 0,
        Checksum := hash [], IsLast := true } =
      .ok ((dest, vp), setFs fs0 vp (some []), 0) := by
    simp [p8Open, hval]
  have hrun : p8Run validateEnsure hash none 0 fs0 (p8SendFile hash dest []) =
      ([{ Success := true, Message := "Chunk received", BytesTransferred := 0 }],
       setFs (setFs fs0 vp (some [])) vp (some []), .ok ()) := by
    rw [hsend]
    simp only [p8Run, hopen]
    simp [setFs_same]
  refine ⟨hsend, by rw [hrun], by rw [hrun], by rw [hrun]; exact setFs_same _ _ _, ?_⟩
  intro tr fid path
  constructor
  · simp [startTransfer, completeTransfer, getProgress]
  · simp [GetProgressPercent]

/-- Witness for C7 at a concrete destination. -/
theorem C7_empty_file_witness :
    p8SendFile wHash "a.txt" [] =
      [{ FilePath := "a.txt", Data := [], Offset := 0, TotalSize := 0,
         Checksum := wHash [], IsLast := true }] ∧
    (p8Run wValidate wHash none 0 emptyFs (p8SendFile wHash "a.txt" [])).1 =
      [{ Success := true, Message := "Chunk received", BytesTransferred := 0 }] ∧
    (p8Run wValidate wHash none 0 emptyFs (p8SendFile wHash "a.txt" [])).2.1 "/data/a.txt" =
      some [] := by
  have h := C7_empty_file wHash wValidate emptyFs "a.txt" "/data/a.txt" rfl
  exact ⟨h.1, h.2.1, h.2.2.2.1⟩

/-! ## Claim C10 : no partial file on abort -/

/-- The chunk/complete loop of the metadata-protocol server removes the
target file on every error exit and leaves it in place exactly on the
successful exit. -/
theorem grpcLoop_invariant :
    ∀ (msgs : List TMsg) (fs : String → Option (List Nat)) (tp : String) (b : Nat),
      (isErr (grpcLoop fs tp b msgs).2 = true → (grpcLoop fs tp b msgs).1 tp = none) ∧
      (isErr (grpcLoop fs tp b msgs).2 = false → (fs tp).isSome = true →
        ((grpcLoop fs tp b msgs).1 tp).isSome = true ∧
        ∃ r, (grpcLoop fs tp b msgs).2 = .ok r ∧ r.Success = true) := by
  intro msgs
  induction msgs with
  | nil =>
    intro fs tp b
    refine ⟨fun _ => setFs_same fs tp none, fun herr _ => ?_⟩
    simp [grpcLoop, isErr] at herr
  | cons m rest ih =>
    intro fs tp b
    cases m with
    | metadata p n =>
      refine ⟨fun _ => setFs_same fs tp none, fun herr _ => ?_⟩
      simp [grpcLoop, isErr] at herr
    | chunk data =>
      have hrec := ih (setFs fs tp (some (((fs tp).getD []) ++ data))) tp (b + data.length)
      refine ⟨fun herr => ?_, fun hok hsome => ?_⟩
      · exact hrec.1 (by simpa [grpcLoop] using herr)
      · have h2 := hrec.2 (by simpa [grpcLoop] using hok) (by rw [setFs_same]; rfl)
        refine ⟨by simpa [grpcLoop] using h2.1, ?_⟩
        obtain ⟨r, hr1, hr2⟩ := h2.2
        exact ⟨r, by simpa [grpcLoop] using hr1, hr2⟩
    | complete declared =>
      by_cases hb : b ≠ declared
      · refine ⟨fun _ => ?_, fun herr _ => ?_⟩
        · simp only [grpcLoop]
          rw [if_pos hb]
          exact setFs_same fs tp none
        · simp only [grpcLoop] at herr
          rw [if_pos hb] at herr
          simp [isErr] at herr
      · rw [not_not] at hb
        refine ⟨fun herr => ?_, fun _ hsome => ?_⟩
        · simp only [grpcLoop] at herr
          rw [if_neg (by simp [hb])] at herr
          simp [isErr] at herr
        · simp only [grpcLoop]
          rw [if_neg (by simp [hb])]
          exact ⟨hsome, ⟨_, rfl, rfl⟩⟩

/-- Claim C10: whenever the metadata-protocol `Transfer` handler returns
an error after creating the destination file, the partially written file
has been deleted (the deferred cleanup); the destination file persists
exactly when the transfer finishes successfully, in which case the
response reports success. When the handler errors before creating the
file (bad first message, invalid path, empty stream), the filesystem is
untouched. -/
theorem C10_no_leftover_file_on_abort (env : GrpcEnv) (rootDir : String)
    (fs0 : String → Option (List Nat)) (msgs : List TMsg) :
    (∀ t, (grpcTransfer env rootDir fs0 msgs).1 = some t →
      (isErr (grpcTransfer env rootDir fs0 msgs).2.2 = true →
        (grpcTransfer env rootDir fs0 msgs).2.1 t = none) ∧
      (isErr (grpcTransfer env rootDir fs0 msgs).2.2 = false →
        ((grpcTransfer env rootDir fs0 msgs).2.1 t).isSome = true ∧
        ∃ r, (grpcTransfer env rootDir fs0 msgs).2.2 = .ok r ∧ r.Success = true)) ∧
    ((grpcTransfer env rootDir fs0 msgs).1 = none →
      (grpcTransfer env rootDir fs0 msgs).2.1 = fs0 ∧
      isErr (grpcTransfer env rootDir fs0 msgs).2.2 = true) := by
  cases msgs with
  | nil => exact ⟨fun t ht => by simp [grpcTransfer] at ht, fun _ => ⟨rfl, by simp [grpcTransfer, isErr]⟩⟩
  | cons m rest =>
    cases m with
    | chunk data =>
      exact ⟨fun t ht => by simp [grpcTransfer] at ht,
             fun _ => ⟨rfl, by simp [grpcTransfer, isErr]⟩⟩
    | complete n =>
      exact ⟨fun t ht => by simp [grpcTransfer] at ht,
             fun _ => ⟨rfl, by simp [grpcTransfer, isErr]⟩⟩
    | metadata fp n =>
      by_cases hbad : strHasPre ".." (env.clean fp) = true ∨ env.isAbs (env.clean fp) = true
      · refine ⟨fun t ht => ?_, fun _ => ?_⟩
        · simp only [grpcTransfer] at ht
          rw [if_pos hbad] at ht
          simp at ht
        · simp only [grpcTransfer]
          rw [if_pos hbad]
          exact ⟨rfl, by simp [isErr]⟩
      · refine ⟨fun t ht => ?_, fun hnone => ?_⟩
        · simp only [grpcTransfer] at ht ⊢
          rw [if_neg hbad] at ht ⊢
          simp only [Option.some.injEq] at ht
          subst ht
          have hinv := grpcLoop_invariant rest
            (setFs fs0 (env.join rootDir (env.clean fp)) (some []))
            (env.join rootDir (env.clean fp)) 0
          refine ⟨fun herr => hinv.1 herr, fun hok => hinv.2 hok ?_⟩
          rw [setFs_same]
          rfl
        · simp only [grpcTransfer] at hnone
          rw [if_neg hbad] at hnone
          simp at hnone

/-- Witness for C10: a stream whose completion total disagrees with the
bytes sent errors and leaves no file at the created target path. -/
theorem C10_no_leftover_file_on_abort_witness :
    (grpcTransfer gEnv "/root" emptyFs gMsgs).2.1 ("/root" ++ "/" ++ "f.txt") = none :=
  ((C10_no_leftover_file_on_abort gEnv "/root" emptyFs gMsgs).1
    ("/root" ++ "/" ++ "f.txt") rfl).1 (by decide)

end FileTransfer
